import Mathlib

/-!
# MiniRedisClient and MiniRedisPubSub

A shallow embedding of `src/MiniRedisClient.cpp` (reply decoding, command submission,
the blocking connection) and of `src/MiniRedisPubSub.cpp` (the asynchronous connection
and the router of inbound frames).

* A `std::string` is a sequence of bytes (`Bytes`); it may hold NUL bytes.
* A `redisReply*` is an `Option RedisReply`; `none` is the null pointer.
* The blocking transport (`redisvCommand` / `redisCommandArgv` on the client's
  `redisContext`) is a parameter `ctx : Request → Option RedisReply`.
* Reference parameters (`std::string& replied`) are passed in and returned.
* Calls to `freeReplyObject` are recorded in a log `freed`.
* The data members of a class are a record; a method takes the record and what the
  library answers, and returns the value, the record and the calls it made, in order.
-/

set_option linter.unusedVariables false

namespace MiniRedis

/-- The content of a `std::string` or of a C buffer: a sequence of bytes. -/
abbrev Bytes := List UInt8

/-! ## C strings -/

/-- The memory `std::string::c_str()` points to: the bytes of the string followed by a
terminating NUL. -/
def c_str (s : Bytes) : Bytes := s ++ [0]

/-- C `strlen`: the number of bytes before the first NUL of the buffer. -/
def strlen : Bytes → Nat
  | [] => 0
  | b :: rest => if b = 0 then 0 else strlen rest + 1

/-- C `strdup`: a fresh buffer holding the bytes before the first NUL, and a NUL. -/
def strdup (p : Bytes) : Bytes := p.take (strlen p) ++ [0]

/-- The constructor `std::string(const char* p, size_t n)`: the first `n` bytes at `p`,
whatever they are. -/
def stdString (p : Bytes) (n : Nat) : Bytes := p.take n

/-! ## hiredis replies -/

/-- The `redisReply` of hiredis, as far as the client reads it: `type`, `integer`, the
payload of `str` and the children `element`. hiredis keeps `len` equal to the length of
the payload and `elements` equal to the number of children, and stores a NUL after the
payload; these are `RedisReply.len`, `RedisReply.elements` and `RedisReply.strPtr`. -/
inductive RedisReply where
  | mk (type : Int) (integer : Int) (str : Bytes) (element : List RedisReply)

namespace RedisReply

/-- Field `reply->type`. -/
def type : RedisReply → Int
  | mk t _ _ _ => t

/-- Field `reply->integer`. -/
def integer : RedisReply → Int
  | mk _ i _ _ => i

/-- The payload bytes of `reply->str`. -/
def str : RedisReply → Bytes
  | mk _ _ s _ => s

/-- Field `reply->element`, the children of an array reply. -/
def element : RedisReply → List RedisReply
  | mk _ _ _ e => e

/-- Field `reply->len`. -/
def len (r : RedisReply) : Nat := r.str.length

/-- Field `reply->elements`. -/
def elements (r : RedisReply) : Nat := r.element.length

/-- The memory `reply->str` points to: the payload and the NUL hiredis stores after it. -/
def strPtr (r : RedisReply) : Bytes := c_str r.str

end RedisReply

/-- Modelled from the spec: the reply kind String/Bulk, constant `REDIS_REPLY_STRING` of
the hiredis header, which is not part of the sources; the value is the one hiredis gives
it. -/
def REDIS_REPLY_STRING : Int := 1

/-- Modelled from the spec: the reply kind Array, constant `REDIS_REPLY_ARRAY` of the
hiredis header. -/
def REDIS_REPLY_ARRAY : Int := 2

/-- Modelled from the spec: the reply kind Integer, constant `REDIS_REPLY_INTEGER` of the
hiredis header. -/
def REDIS_REPLY_INTEGER : Int := 3

/-- Modelled from the spec: the reply kind Nil, constant `REDIS_REPLY_NIL` of the hiredis
header. -/
def REDIS_REPLY_NIL : Int := 4

/-- Modelled from the spec: the reply kind Status, constant `REDIS_REPLY_STATUS` of the
hiredis header. -/
def REDIS_REPLY_STATUS : Int := 5

/-- Modelled from the spec: the reply kind Error, constant `REDIS_REPLY_ERROR` of the
hiredis header. -/
def REDIS_REPLY_ERROR : Int := 6

/-- The call `freeReplyObject(reply)` of hiredis on the log of released replies: a reply
is released together with its children; a null pointer is ignored. -/
def freeReplyObject (reply : Option RedisReply) (freed : List RedisReply) : List RedisReply :=
  match reply with
  | none => freed
  | some r => freed ++ [r]

/-! ## The typed decoders -/

/-- What a `Handle*Reply` call leaves behind: the returned flag, the caller's output
variable `replied`, and the replies released during the call. -/
structure Handled (α : Type) where
  ret : Bool
  replied : α
  freed : List RedisReply

/-- Method `MiniRedisClient::CheckReplyType`. -/
def CheckReplyType (reply : Option RedisReply) (expectedType : Int) : Bool :=
  match reply with
  | none => false
  | some r => r.type == expectedType

/-- The object `*reply` in a branch that `CheckReplyType` has guarded: the check rejects
the null pointer, so a reply is there. -/
def deref (reply : Option RedisReply) (expectedType : Int)
    (h : CheckReplyType reply expectedType = true) : RedisReply :=
  match reply, h with
  | some r, _ => r

/-- Method `MiniRedisClient::HandleStatusReply`; `replied` is the caller's string on entry. -/
def HandleStatusReply (reply : Option RedisReply) (replied : Bytes) : Handled Bytes :=
  let out : Bool × Bytes :=
    if h : CheckReplyType reply REDIS_REPLY_STATUS = false then
      (false, [])
    else
      let r := deref reply REDIS_REPLY_STATUS (Bool.of_not_eq_false h)
      (true, stdString r.strPtr r.len)
  { ret := out.1, replied := out.2, freed := freeReplyObject reply [] }

/-- Method `MiniRedisClient::HandleStringReply`; `replied` is the caller's string on entry. -/
def HandleStringReply (reply : Option RedisReply) (replied : Bytes) : Handled Bytes :=
  let out : Bool × Bytes :=
    if h : CheckReplyType reply REDIS_REPLY_STRING = false then
      (false, [])
    else
      let r := deref reply REDIS_REPLY_STRING (Bool.of_not_eq_false h)
      (true, stdString r.strPtr r.len)
  { ret := out.1, replied := out.2, freed := freeReplyObject reply [] }

/-- Method `MiniRedisClient::HandleIntegerReply`; `replied` is the caller's integer on entry. -/
def HandleIntegerReply (reply : Option RedisReply) (replied : Int) : Handled Int :=
  let out : Bool × Int :=
    if h : CheckReplyType reply REDIS_REPLY_INTEGER = false then
      (false, -1)
    else
      let r := deref reply REDIS_REPLY_INTEGER (Bool.of_not_eq_false h)
      (true, r.integer)
  { ret := out.1, replied := out.2, freed := freeReplyObject reply [] }

/-- The loop of `HandleArrayReply`: for `i` from `0` to `reply->elements - 1`, the string
built from `element[i]->str` and `element[i]->len` is pushed on `replied`. -/
def pushElements (element : List RedisReply) (replied : List Bytes) : List Bytes :=
  element.foldl (fun acc e => acc ++ [stdString e.strPtr e.len]) replied

/-- Method `MiniRedisClient::HandleArrayReply`; `replied` is the caller's vector on entry.
A null reply returns at once, before anything is assigned or released; otherwise the
vector is replaced by the empty one or cleared and filled by the loop. -/
def HandleArrayReply (reply : Option RedisReply) (replied : List Bytes) :
    Handled (List Bytes) :=
  match reply with
  | none => { ret := false, replied := replied, freed := [] }
  | some r =>
    let out : Bool × List Bytes :=
      if CheckReplyType (some r) REDIS_REPLY_ARRAY = false then
        (false, [])
      else
        (true, pushElements r.element [])
    { ret := out.1, replied := out.2, freed := freeReplyObject (some r) [] }

/-! ## The transport -/

/-- An argument of the variadic `execute`, as hiredis consumes it for a conversion of the
format: `%b` takes a pointer and a `size_t` length, `%s` a NUL-terminated pointer, `%d`
an integer. -/
inductive VArg where
  | b (p : Bytes) (n : Nat)
  | s (p : Bytes)
  | d (v : Int)
  deriving DecidableEq

/-- What the client hands to hiredis for one command: `redisvCommand(context, format, ap)`
or `redisCommandArgv(context, argc, argv, argvlen)`. The pointers of `argv` are given by
the memory they point to. -/
inductive Request where
  | v (format : String) (ap : List VArg)
  | argv (argc : Nat) (argv : List Bytes) (argvlen : List Nat)
  deriving DecidableEq

/-- The argument vector hiredis transmits for a `redisCommandArgv` request: entry `i` is
the first `argvlen[i]` bytes at `argv[i]`. -/
def transmitted (argv : List Bytes) (argvlen : List Nat) : List Bytes :=
  List.zipWith stdString argv argvlen

/-- The blocking connection `context`: it answers a request with a reply or with the null
pointer. -/
abbrev Context := Request → Option RedisReply

/-- Method `MiniRedisClient::execute(const std::string& command, ...)`. -/
def execute (context : Context) (command : String) (ap : List VArg) : Option RedisReply :=
  context (Request.v command ap)

/-- The first loop of the vector `execute`: `argv[index] = strdup(iter.c_str())` for each
argument. -/
def dupArgs (args : List Bytes) : List Bytes :=
  args.map (fun iter => strdup (c_str iter))

/-- The second loop of the vector `execute`: `argvLen[i] = ::strlen(argv[i])`; the line
it writes to `std::cout` for each entry is left out. -/
def argLens (argv : List Bytes) : List Nat :=
  argv.map strlen

/-- The array `argv` of the vector `execute`: `argv[0] = strdup(command.c_str())`, then
one duplicate for each argument. -/
def executeArgvArgv (command : Bytes) (args : List Bytes) : List Bytes :=
  strdup (c_str command) :: dupArgs args

/-- The request the vector `execute` builds: `argc`, `argv` and `argvLen` as they are
passed to `redisCommandArgv`. -/
def executeArgvRequest (command : Bytes) (args : List Bytes) : Request :=
  let argc := args.length + 1
  let argv := executeArgvArgv command args
  let argvLen := argLens argv
  Request.argv argc argv argvLen

/-- Method `MiniRedisClient::execute(const std::string& command,
const std::vector<std::string>& args)`. -/
def executeArgv (context : Context) (command : Bytes) (args : List Bytes) :
    Option RedisReply :=
  context (executeArgvRequest command args)

/-! ## Commands -/

/-- Method `MiniRedisClient::expire`. -/
def expire (context : Context) (key : Bytes) (seconds : Nat) (replied : Int) : Handled Int :=
  let reply := execute context "EXPIRE %b %d" [VArg.b (c_str key) key.length, VArg.d seconds]
  HandleIntegerReply reply replied

/-- Method `MiniRedisClient::get`. -/
def get (context : Context) (key : Bytes) (replied : Bytes) : Handled Bytes :=
  let reply := execute context "GET %b" [VArg.b (c_str key) key.length]
  HandleStringReply reply replied

/-- What a `ping` call leaves behind: the request submitted, the returned string and the
replies released. -/
structure Pinged where
  sent : Request
  ret : Bytes
  freed : List RedisReply

/-- Method `MiniRedisClient::ping`. -/
def ping (context : Context) (msg : Bytes) : Pinged :=
  let call : Int × Request :=
    if msg.isEmpty then
      (REDIS_REPLY_STATUS, Request.v "PING" [])
    else
      (REDIS_REPLY_STRING, Request.v "PING %b" [VArg.b (c_str msg) msg.length])
  let expectedType := call.1
  let reply := context call.2
  let replied : Bytes :=
    if h : CheckReplyType reply expectedType = true then
      let r := deref reply expectedType h
      stdString r.strPtr r.len
    else []
  { sent := call.2, ret := replied, freed := freeReplyObject reply [] }

/-! ## `std::map` and `hgetall` -/

/-- A `std::map<std::string, std::string>`, as the list of its entries; no two entries
have the same key. The order of iteration is not modelled. -/
abbrev StdMap := List (Bytes × Bytes)

/-- Method `std::map::find`: the value stored under `key`, if there is one. -/
def StdMap.find (m : StdMap) (key : Bytes) : Option Bytes :=
  match m with
  | [] => none
  | (k, v) :: rest => if k = key then some v else StdMap.find rest key

/-- Method `std::map::emplace`: the entry is inserted when the map has no entry with that key,
and otherwise the map is left as it is. -/
def StdMap.emplace (m : StdMap) (key val : Bytes) : StdMap :=
  match m.find key with
  | some _ => m
  | none => m ++ [(key, val)]

/-- Method `std::map::size`. -/
def StdMap.size (m : StdMap) : Nat := m.length

/-- How a piece of code ends: it returns a value, or it reads a `std::vector` through
`operator[]` at an index that is not below its size, which is undefined behaviour. -/
inductive Exec (α : Type) where
  | returns (a : α)
  | outOfBounds
  deriving DecidableEq

/-- The loop of `hgetall` from index `i` on: `for (; i < sz; ) { itemKey = items[i];
itemVal = items[i+1]; replied.emplace(itemKey, itemVal); i += 2; }`. -/
def hgetallLoop (items : List Bytes) (sz : Nat) (i : Nat) (replied : StdMap) : Exec StdMap :=
  if i < sz then
    match items[i]?, items[i + 1]? with
    | some itemKey, some itemVal => hgetallLoop items sz (i + 2) (replied.emplace itemKey itemVal)
    | _, _ => Exec.outOfBounds
  else
    Exec.returns replied
termination_by sz - i
decreasing_by omega

/-- What an `hgetall` call leaves behind: how it ends (with the returned flag and the
caller's map `replied`), and the replies released. -/
structure Hgot where
  result : Exec (Bool × StdMap)
  freed : List RedisReply

/-- Method `MiniRedisClient::hgetall`; `replied` is the caller's map on entry. -/
def hgetall (context : Context) (key : Bytes) (replied : StdMap) : Hgot :=
  let reply := execute context "HGETALL %b" [VArg.b (c_str key) key.length]
  let cleared : StdMap := []
  let handled := HandleArrayReply reply []
  let items := handled.replied
  if handled.ret = false then
    { result := Exec.returns (false, cleared), freed := handled.freed }
  else
    let sz := items.length
    match hgetallLoop items sz 0 cleared with
    | Exec.returns m => { result := Exec.returns (true, m), freed := handled.freed }
    | Exec.outOfBounds => { result := Exec.outOfBounds, freed := handled.freed }

/-! ## Specification-side definitions -/

/-- The array `[k0, v0, k1, v1, ...]` of the spec, for the pairs `(k0, v0), (k1, v1), ...`. -/
def alternating : List (Bytes × Bytes) → List Bytes
  | [] => []
  | (k, v) :: rest => k :: v :: alternating rest

/-- The spec's words for a string decode: the payload of the reply when a reply is there
and its kind is the expected one, and the empty string in every other case. -/
def payloadIfKind (reply : Option RedisReply) (expectedKind : Int) : Bytes :=
  match reply with
  | none => []
  | some r => if r.type = expectedKind then r.str else []

/-- The loop of `hgetall` told on the items that are left: none left, the map is
returned; one left, its partner is read past the end; otherwise a pair is emplaced. -/
def flattenPairs : List Bytes → StdMap → Exec StdMap
  | [], m => Exec.returns m
  | [_], _ => Exec.outOfBounds
  | k :: v :: rest, m => flattenPairs rest (m.emplace k v)

/-- The bytes of a string before its first NUL. -/
def untilNul : Bytes → Bytes
  | [] => []
  | b :: rest => if b = 0 then [] else b :: untilNul rest

/-! ## The synchronous connection: `Connect` and `Clean` -/

/-- A `redisContext*` that is not null: the allocation, named by a number, and its field
`err`. -/
structure RedisContext where
  id : Nat
  err : Int
  deriving DecidableEq

/-- The calls the connection code of `MiniRedisClient` makes to hiredis. -/
inductive SyncCall where
  | redisFree (c : RedisContext)
  | redisConnectWithTimeout (host : Bytes) (port : Nat) (tv_sec : Nat)
  deriving DecidableEq

/-- The data members of class `MiniRedisClient`; `context` is `none` for `nullptr`. -/
structure MiniRedisClient where
  host : Bytes
  port : Nat
  timeoutSeconds : Nat
  context : Option RedisContext
  deriving DecidableEq

/-- Method `MiniRedisClient::Init`, as the constructor runs it: host "127.0.0.1", port
6379, a timeout of 3 seconds, no context. -/
def MiniRedisClient.Init : MiniRedisClient :=
  { host := [49, 50, 55, 46, 48, 46, 48, 46, 49], port := 6379, timeoutSeconds := 3,
    context := none }

/-- What a call on a `MiniRedisClient` leaves behind: the returned value, the object, and
the calls made to hiredis, in order. -/
structure SyncDone (α : Type) where
  ret : α
  self : MiniRedisClient
  calls : List SyncCall
  deriving DecidableEq

/-- Method `MiniRedisClient::Clean`, which is also what the destructor runs. -/
def MiniRedisClient.Clean (self : MiniRedisClient) : SyncDone Unit :=
  match self.context with
  | some c => { ret := (), self := { self with context := none }, calls := [SyncCall.redisFree c] }
  | none => { ret := (), self := self, calls := [] }

/-- Method `MiniRedisClient::GetRawContext`: the pointer held is returned and the member is
set to `nullptr`; nothing is called. -/
def MiniRedisClient.GetRawContext (self : MiniRedisClient) : SyncDone (Option RedisContext) :=
  let ans := self.context
  { ret := ans, self := { self with context := none }, calls := [] }

/-- Method `MiniRedisClient::Connect()`; `answer` is what `redisConnectWithTimeout`
returns. The lines written to `std::cout` are left out. -/
def MiniRedisClient.Connect (self : MiniRedisClient) (answer : Option RedisContext) :
    SyncDone Bool :=
  let cleaned := self.Clean
  let connect := SyncCall.redisConnectWithTimeout cleaned.self.host cleaned.self.port
    cleaned.self.timeoutSeconds
  let assigned : MiniRedisClient := { cleaned.self with context := answer }
  match answer with
  | none => { ret := false, self := assigned, calls := cleaned.calls ++ [connect] }
  | some c =>
    if c.err ≠ 0 then
      { ret := false, self := assigned,
        calls := cleaned.calls ++ [connect, SyncCall.redisFree c] }
    else
      { ret := true, self := assigned, calls := cleaned.calls ++ [connect] }

/-- A run of `Connect()` calls, one for each answer of the transport, from the object
`self`: the object at the end and all calls made to hiredis. -/
def connectEach : MiniRedisClient → List RedisContext → MiniRedisClient × List SyncCall
  | self, [] => (self, [])
  | self, c :: rest =>
    let step := self.Connect (some c)
    let tail := connectEach step.self rest
    (tail.1, step.calls ++ tail.2)

/-- The contexts handed to `redisFree` by a list of calls, in order. -/
def released : List SyncCall → List RedisContext
  | [] => []
  | SyncCall.redisFree c :: rest => c :: released rest
  | SyncCall.redisConnectWithTimeout _ _ _ :: rest => released rest

/-! ## The asynchronous connection: `MiniRedisPubSub` -/

/-- A `redisAsyncContext*` that is not null: the allocation, named by a number, and its
field `err`. -/
structure RedisAsyncContext where
  id : Nat
  err : Int
  deriving DecidableEq

/-- An `event_base*` that is not null, named by a number. -/
structure EventBase where
  id : Nat
  deriving DecidableEq

/-- The two completion callbacks the class hands to `redisAsyncCommand`. -/
inductive AsyncCb where
  | OnPublishMsg
  | OnSubscribeMsg
  deriving DecidableEq

/-- The lines the class writes to `std::cout` and `std::cerr`. -/
inductive Line where
  | failedToConnect
  | cantAllocate
  | failedToPublish (channel : Bytes)
  | failedToSubscribe (channel : Bytes)
  | failedToUnsubscribe (channel : Bytes)
  | expectingArray (type : Int)
  | expectingThreeElements (elements : Nat)
  | subscribeAck
  | unsubscribeAck
  | subscribeChannel (channel content : Bytes)
  deriving DecidableEq

/-- What the code of `MiniRedisPubSub` does to the world around it, in order: calls to
hiredis and libevent, the start of the event-loop thread, reads of `reply->element[i]`,
calls of the user's callback `subCb`, and lines written. -/
inductive Effect where
  | redisAsyncConnect (host : Bytes) (port : Nat)
  | event_base_new
  | redisLibeventAttach (ac : RedisAsyncContext) (evt : Option EventBase)
  | redisAsyncSetConnectCallback (ac : RedisAsyncContext)
  | redisAsyncSetDisconnectCallback (ac : RedisAsyncContext)
  | threadDetached
  | redisAsyncDisconnect (ac : RedisAsyncContext)
  | event_base_loopbreak (evt : Option EventBase)
  | event_base_free (evt : Option EventBase)
  | redisAsyncCommand (ac : RedisAsyncContext) (fn : AsyncCb) (format : String)
      (ap : List VArg)
  | readElement (i : Nat)
  | subCb (cb : Nat) (channel content : Bytes)
  | cout (line : Line)
  | cerr (line : Line)
  deriving DecidableEq

/-- The data members of class `MiniRedisPubSub`; `none` is `nullptr`, and for `subCb` the
empty `std::function`. A callback that is set is named by a number. -/
structure MiniRedisPubSub where
  host : Bytes
  port : Nat
  asyncContext : Option RedisAsyncContext
  evt : Option EventBase
  subCb : Option Nat
  deriving DecidableEq

/-- What a call on a `MiniRedisPubSub` leaves behind: the returned value, the object, and
the effects, in order. -/
structure AsyncDone (α : Type) where
  ret : α
  self : MiniRedisPubSub
  effects : List Effect
  deriving DecidableEq

/-- Modelled from the spec: the failure code `REDIS_ERR` of the hiredis header, which is
not part of the sources; the value is the one hiredis gives it. -/
def REDIS_ERR : Int := -1

namespace MiniRedisPubSub

/-- Method `MiniRedisPubSub::Init`, as the constructor runs it. -/
def Init : MiniRedisPubSub :=
  { host := [49, 50, 55, 46, 48, 46, 48, 46, 49], port := 6379, asyncContext := none,
    evt := none, subCb := none }

/-- Method `MiniRedisPubSub::SetSubscribeCb`. -/
def SetSubscribeCb (self : MiniRedisPubSub) (cb : Option Nat) : MiniRedisPubSub :=
  { self with subCb := cb }

/-- Method `MiniRedisPubSub::Connect()`; `answer` is what `redisAsyncConnect` returns and
`newBase` what `event_base_new` returns if it is called. -/
def Connect (self : MiniRedisPubSub) (answer : Option RedisAsyncContext)
    (newBase : Option EventBase) : AsyncDone Bool :=
  let assigned : MiniRedisPubSub := { self with asyncContext := answer }
  let connect := Effect.redisAsyncConnect self.host self.port
  match answer with
  | none =>
    { ret := false, self := assigned, effects := [connect, Effect.cerr Line.cantAllocate] }
  | some ac =>
    if ac.err ≠ 0 then
      { ret := false, self := assigned,
        effects := [connect, Effect.cerr Line.failedToConnect] }
    else
      let based : MiniRedisPubSub × List Effect :=
        match assigned.evt with
        | none => ({ assigned with evt := newBase }, [Effect.event_base_new])
        | some _ => (assigned, [])
      { ret := true, self := based.1,
        effects := [connect] ++ based.2 ++
          [Effect.redisLibeventAttach ac based.1.evt, Effect.redisAsyncSetConnectCallback ac,
            Effect.redisAsyncSetDisconnectCallback ac, Effect.threadDetached] }

/-- Method `MiniRedisPubSub::Disconnect`, which is also what the destructor runs. -/
def Disconnect (self : MiniRedisPubSub) : AsyncDone Bool :=
  match self.asyncContext with
  | none => { ret := false, self := self, effects := [] }
  | some ac =>
    { ret := true, self := { self with asyncContext := none, evt := none },
      effects := [Effect.redisAsyncDisconnect ac, Effect.event_base_loopbreak self.evt,
        Effect.event_base_free self.evt] }

/-- Method `MiniRedisPubSub::Publish`; `answer` is what `redisAsyncCommand` returns if it
is called. -/
def Publish (self : MiniRedisPubSub) (channel content : Bytes) (answer : Int) :
    AsyncDone Bool :=
  match self.asyncContext with
  | none => { ret := false, self := self, effects := [] }
  | some ac =>
    if channel.isEmpty || content.isEmpty then
      { ret := false, self := self, effects := [] }
    else
      let command := Effect.redisAsyncCommand ac AsyncCb.OnPublishMsg "PUBLISH %b %b"
        [VArg.b (c_str channel) channel.length, VArg.b (c_str content) content.length]
      if answer = REDIS_ERR then
        { ret := false, self := self,
          effects := [command, Effect.cerr (Line.failedToPublish channel)] }
      else
        { ret := true, self := self, effects := [command] }

/-- Method `MiniRedisPubSub::Subscribe`; `answer` is what `redisAsyncCommand` returns if it
is called. -/
def Subscribe (self : MiniRedisPubSub) (channel : Bytes) (answer : Int) : AsyncDone Bool :=
  match self.asyncContext with
  | none => { ret := false, self := self, effects := [] }
  | some ac =>
    if channel.isEmpty then
      { ret := false, self := self, effects := [] }
    else
      let command := Effect.redisAsyncCommand ac AsyncCb.OnSubscribeMsg "SUBSCRIBE %b"
        [VArg.b (c_str channel) channel.length]
      if answer = REDIS_ERR then
        { ret := false, self := self,
          effects := [command, Effect.cerr (Line.failedToSubscribe channel)] }
      else
        { ret := true, self := self, effects := [command] }

/-- Method `MiniRedisPubSub::Unsubscribe`; `answer` is what `redisAsyncCommand` returns if
it is called. -/
def Unsubscribe (self : MiniRedisPubSub) (channel : Bytes) (answer : Int) : AsyncDone Bool :=
  match self.asyncContext with
  | none => { ret := false, self := self, effects := [] }
  | some ac =>
    if channel.isEmpty then
      { ret := false, self := self, effects := [] }
    else
      let command := Effect.redisAsyncCommand ac AsyncCb.OnSubscribeMsg "UNSUBSCRIBE %b"
        [VArg.b (c_str channel) channel.length]
      if answer = REDIS_ERR then
        { ret := false, self := self,
          effects := [command, Effect.cerr (Line.failedToUnsubscribe channel)] }
      else
        { ret := true, self := self, effects := [command] }

end MiniRedisPubSub

/-- The bytes of the literal "subscribe". -/
def subscribeLiteral : Bytes := [115, 117, 98, 115, 99, 114, 105, 98, 101]

/-- The bytes of the literal "unsubscribe". -/
def unsubscribeLiteral : Bytes := [117, 110, 115, 117, 98, 115, 99, 114, 105, 98, 101]

/-- What a call of the router leaves behind: the object `privData` points to, which the
router only reads, and the effects, in order. -/
structure Routed where
  self : Option MiniRedisPubSub
  effects : List Effect
  deriving DecidableEq

/-- Method `MiniRedisPubSub::OnSubscribeMsg`, the router: `pThis` is the object `privData`
points to and `reply` the frame `replyData` points to, `none` for null pointers. -/
def MiniRedisPubSub.OnSubscribeMsg (pThis : Option MiniRedisPubSub)
    (reply : Option RedisReply) : Routed :=
  match pThis, reply with
  | some self, some r =>
    if r.type ≠ REDIS_REPLY_ARRAY then
      { self := pThis, effects := [Effect.cerr (Line.expectingArray r.type)] }
    else if r.elements ≠ 3 then
      { self := pThis, effects := [Effect.cerr (Line.expectingThreeElements r.elements)] }
    else
      match r.element with
      | [elem, elemChannel, elemContent] =>
        let replyType := stdString elem.strPtr elem.len
        if replyType = subscribeLiteral then
          { self := pThis, effects := [Effect.readElement 0, Effect.cout Line.subscribeAck] }
        else if replyType = unsubscribeLiteral then
          { self := pThis, effects := [Effect.readElement 0, Effect.cout Line.unsubscribeAck] }
        else
          let channel := stdString elemChannel.strPtr elemChannel.len
          let content := stdString elemContent.strPtr elemContent.len
          match self.subCb with
          | some cb =>
            { self := pThis,
              effects := [Effect.readElement 0, Effect.readElement 1, Effect.readElement 2,
                Effect.subCb cb channel content] }
          | none =>
            { self := pThis,
              effects := [Effect.readElement 0, Effect.readElement 1, Effect.readElement 2,
                Effect.cout (Line.subscribeChannel channel content)] }
      | _ => { self := pThis, effects := [] }
  | _, _ => { self := pThis, effects := [] }

/-- The calls of the user's callback among the effects: callback, channel and content. -/
def callbacks : List Effect → List (Nat × Bytes × Bytes)
  | [] => []
  | Effect.subCb cb channel content :: rest => (cb, channel, content) :: callbacks rest
  | _ :: rest => callbacks rest

/-- The indices `i` of the reads of `reply->element[i]` among the effects. -/
def elementReads : List Effect → List Nat
  | [] => []
  | Effect.readElement i :: rest => i :: elementReads rest
  | _ :: rest => elementReads rest

/-- The commands handed to `redisAsyncCommand` among the effects. -/
def submitted : List Effect → List (String × List VArg)
  | [] => []
  | Effect.redisAsyncCommand _ _ format ap :: rest => (format, ap) :: submitted rest
  | _ :: rest => submitted rest

/-! ## Lemmas on C strings and replies -/

theorem stdString_c_str (s : Bytes) : stdString (c_str s) s.length = s := by
  simp [stdString, c_str]

theorem stdString_strPtr (r : RedisReply) : stdString r.strPtr r.len = r.str := by
  simp [RedisReply.strPtr, RedisReply.len, stdString_c_str]

theorem pushElements_eq (element : List RedisReply) (replied : List Bytes) :
    pushElements element replied = replied ++ element.map RedisReply.str := by
  unfold pushElements
  induction element generalizing replied with
  | nil => simp
  | cons e rest ih =>
    rw [List.foldl_cons, ih]
    simp [stdString_strPtr]

theorem freeReplyObject_nil (reply : Option RedisReply) :
    freeReplyObject reply [] = reply.toList := by
  cases reply <;> rfl

theorem CheckReplyType_some (r : RedisReply) (t : Int) :
    CheckReplyType (some r) t = true ↔ r.type = t := by
  simp [CheckReplyType]

theorem deref_some (r : RedisReply) (t : Int) (h : CheckReplyType (some r) t = true) :
    deref (some r) t h = r := rfl

theorem guarded_payload (reply : Option RedisReply) (t : Int) :
    (if h : CheckReplyType reply t = true then
        stdString (deref reply t h).strPtr (deref reply t h).len
      else []) = payloadIfKind reply t := by
  cases reply with
  | none => simp [CheckReplyType, payloadIfKind]
  | some r =>
    by_cases ht : r.type = t
    · simp [CheckReplyType, payloadIfKind, ht, deref, stdString_strPtr]
    · simp [CheckReplyType, payloadIfKind, ht]

theorem HandleStatusReply_some (r : RedisReply) (old : Bytes) :
    HandleStatusReply (some r) old =
      if r.type = REDIS_REPLY_STATUS then { ret := true, replied := r.str, freed := [r] }
      else { ret := false, replied := [], freed := [r] } := by
  by_cases h : r.type = REDIS_REPLY_STATUS
  · simp [HandleStatusReply, CheckReplyType, h, deref, stdString_strPtr, freeReplyObject]
  · simp [HandleStatusReply, CheckReplyType, h, freeReplyObject]

theorem HandleStringReply_some (r : RedisReply) (old : Bytes) :
    HandleStringReply (some r) old =
      if r.type = REDIS_REPLY_STRING then { ret := true, replied := r.str, freed := [r] }
      else { ret := false, replied := [], freed := [r] } := by
  by_cases h : r.type = REDIS_REPLY_STRING
  · simp [HandleStringReply, CheckReplyType, h, deref, stdString_strPtr, freeReplyObject]
  · simp [HandleStringReply, CheckReplyType, h, freeReplyObject]

theorem HandleIntegerReply_some (r : RedisReply) (old : Int) :
    HandleIntegerReply (some r) old =
      if r.type = REDIS_REPLY_INTEGER then { ret := true, replied := r.integer, freed := [r] }
      else { ret := false, replied := -1, freed := [r] } := by
  by_cases h : r.type = REDIS_REPLY_INTEGER
  · simp [HandleIntegerReply, CheckReplyType, h, deref, freeReplyObject]
  · simp [HandleIntegerReply, CheckReplyType, h, freeReplyObject]

theorem HandleArrayReply_some (r : RedisReply) (old : List Bytes) :
    HandleArrayReply (some r) old =
      if r.type = REDIS_REPLY_ARRAY then
        { ret := true, replied := r.element.map RedisReply.str, freed := [r] }
      else { ret := false, replied := [], freed := [r] } := by
  by_cases h : r.type = REDIS_REPLY_ARRAY
  · simp [HandleArrayReply, CheckReplyType, h, pushElements_eq, freeReplyObject]
  · simp [HandleArrayReply, CheckReplyType, h, freeReplyObject]

theorem HandleStatusReply_none (old : Bytes) :
    HandleStatusReply none old = { ret := false, replied := [], freed := [] } := by
  simp [HandleStatusReply, CheckReplyType, freeReplyObject]

theorem HandleStringReply_none (old : Bytes) :
    HandleStringReply none old = { ret := false, replied := [], freed := [] } := by
  simp [HandleStringReply, CheckReplyType, freeReplyObject]

theorem HandleIntegerReply_none (old : Int) :
    HandleIntegerReply none old = { ret := false, replied := -1, freed := [] } := by
  simp [HandleIntegerReply, CheckReplyType, freeReplyObject]

theorem HandleArrayReply_none (old : List Bytes) :
    HandleArrayReply none old = { ret := false, replied := old, freed := [] } := rfl

/-! ## Lemmas on `std::map` and the loop of `hgetall` -/

theorem hgetallLoop_eq_flattenPairs :
    ∀ (rest pre : List Bytes) (m : StdMap),
      hgetallLoop (pre ++ rest) (pre.length + rest.length) pre.length m = flattenPairs rest m
  | [], pre, m => by
    rw [hgetallLoop]
    simp [flattenPairs]
  | [k], pre, m => by
    rw [hgetallLoop]
    have h2 : (pre ++ [k])[pre.length + 1]? = none := by
      rw [List.getElem?_eq_none]
      simp
    simp [flattenPairs, h2]
  | k :: v :: rest, pre, m => by
    have ih := hgetallLoop_eq_flattenPairs rest (pre ++ [k, v]) (m.emplace k v)
    have e1 : pre ++ [k, v] ++ rest = pre ++ k :: v :: rest := by simp
    have e2 : (pre ++ [k, v]).length + rest.length = pre.length + (k :: v :: rest).length := by
      simp; omega
    have e3 : (pre ++ [k, v]).length = pre.length + 2 := by simp
    rw [e1, e2, e3] at ih
    rw [hgetallLoop]
    have h1 : (pre ++ k :: v :: rest)[pre.length]? = some k := by
      rw [List.getElem?_append_right (le_refl _)]
      simp
    have h2 : (pre ++ k :: v :: rest)[pre.length + 1]? = some v := by
      rw [List.getElem?_append_right (by omega)]
      simp
    simp only [h1, h2]
    rw [ih]
    simp [flattenPairs]

theorem hgetallLoop_zero (items : List Bytes) (m : StdMap) :
    hgetallLoop items items.length 0 m = flattenPairs items m := by
  simpa using hgetallLoop_eq_flattenPairs items [] m

theorem flattenPairs_odd :
    ∀ (items : List Bytes) (m : StdMap), items.length % 2 = 1 →
      flattenPairs items m = Exec.outOfBounds
  | [], _, h => by simp at h
  | [_], _, _ => rfl
  | k :: v :: rest, m, h => by
    have h0 : rest.length % 2 = 1 := by
      simp only [List.length_cons] at h
      omega
    simpa [flattenPairs] using flattenPairs_odd rest (m.emplace k v) h0

theorem flattenPairs_alternating (kvs : List (Bytes × Bytes)) (m : StdMap) :
    flattenPairs (alternating kvs) m
      = Exec.returns (kvs.foldl (fun acc kv => acc.emplace kv.1 kv.2) m) := by
  induction kvs generalizing m with
  | nil => rfl
  | cons kv rest ih =>
    obtain ⟨k, v⟩ := kv
    simp [alternating, flattenPairs, ih]

theorem StdMap.find_eq_none (m : StdMap) (key : Bytes) :
    m.find key = none ↔ key ∉ m.map Prod.fst := by
  induction m with
  | nil => simp [StdMap.find]
  | cons kv rest ih =>
    obtain ⟨k, v⟩ := kv
    by_cases h : k = key
    · simp [StdMap.find, h]
    · have h0 : ¬ key = k := fun e => h e.symm
      simp [StdMap.find, h, h0, ih]

theorem StdMap.find_of_mem (m : StdMap) (hm : (m.map Prod.fst).Nodup) (k v : Bytes)
    (h : (k, v) ∈ m) : m.find k = some v := by
  induction m with
  | nil => simp at h
  | cons kv rest ih =>
    obtain ⟨k0, v0⟩ := kv
    simp only [List.map_cons, List.nodup_cons] at hm
    rcases List.mem_cons.mp h with h | h
    · cases h
      simp [StdMap.find]
    · have hk : k0 ≠ k := by
        intro e
        apply hm.1
        rw [e]
        exact List.mem_map_of_mem Prod.fst h
      simp [StdMap.find, hk, ih hm.2 h]

theorem emplace_all_distinct (kvs : List (Bytes × Bytes)) (m : StdMap)
    (h : ((m ++ kvs).map Prod.fst).Nodup) :
    kvs.foldl (fun acc kv => acc.emplace kv.1 kv.2) m = m ++ kvs := by
  induction kvs generalizing m with
  | nil => simp
  | cons kv rest ih =>
    obtain ⟨k, v⟩ := kv
    have hk : m.find k = none := by
      rw [StdMap.find_eq_none]
      intro hmem
      rw [List.map_append, List.nodup_append] at h
      exact h.2.2 hmem (by simp)
    have hstep : m.emplace k v = m ++ [(k, v)] := by simp [StdMap.emplace, hk]
    rw [List.foldl_cons, hstep, ih]
    · simp
    · simpa using h

theorem hgetall_of_array (context : Context) (key : Bytes) (old : StdMap) (r : RedisReply)
    (hctx : context (Request.v "HGETALL %b" [VArg.b (c_str key) key.length]) = some r)
    (htype : r.type = REDIS_REPLY_ARRAY) :
    hgetall context key old =
      match flattenPairs (r.element.map RedisReply.str) [] with
      | Exec.returns m => { result := Exec.returns (true, m), freed := [r] }
      | Exec.outOfBounds => { result := Exec.outOfBounds, freed := [r] } := by
  simp only [hgetall, execute, hctx, HandleArrayReply_some, htype, if_true, hgetallLoop_zero]
  simp

theorem hgetall_freed (context : Context) (key : Bytes) (old : StdMap) :
    (hgetall context key old).freed
      = (context (Request.v "HGETALL %b" [VArg.b (c_str key) key.length])).toList := by
  unfold hgetall execute
  cases context (Request.v "HGETALL %b" [VArg.b (c_str key) key.length]) with
  | none => simp [HandleArrayReply_none]
  | some r =>
    simp only [HandleArrayReply_some]
    by_cases h : r.type = REDIS_REPLY_ARRAY
    · simp only [h, if_true]
      cases hgetallLoop (List.map RedisReply.str r.element)
        (List.map RedisReply.str r.element).length 0 [] <;> simp
    · simp [h]

/-! ## The typed decoders: claims C1, C2, C5, C6, C7 -/

/-- C1: for a reply that is there, each typed decoder returns `ok = true` exactly when the
kind of the reply is the kind the decoder expects (`HandleStatusReply` Status,
`HandleStringReply` String, `HandleIntegerReply` Integer, `HandleArrayReply` Array); for
the null reply every decoder returns `ok = false`; a Nil or an Error reply is decoded as a
success by none of them, and `get` returns `ok = true` exactly when the transport answers
with a String reply, so `get` on a missing key (Nil reply) returns `ok = false`. -/
theorem C1_decoder_ok_iff_expected_kind (r : RedisReply) (s : Bytes) (n : Int)
    (v : List Bytes) (context : Context) (key : Bytes) (i : Int) (p : Bytes)
    (e : List RedisReply) :
    ((HandleStatusReply (some r) s).ret = true ↔ r.type = REDIS_REPLY_STATUS) ∧
    ((HandleStringReply (some r) s).ret = true ↔ r.type = REDIS_REPLY_STRING) ∧
    ((HandleIntegerReply (some r) n).ret = true ↔ r.type = REDIS_REPLY_INTEGER) ∧
    ((HandleArrayReply (some r) v).ret = true ↔ r.type = REDIS_REPLY_ARRAY) ∧
    ((HandleStatusReply none s).ret = false ∧ (HandleStringReply none s).ret = false ∧
      (HandleIntegerReply none n).ret = false ∧ (HandleArrayReply none v).ret = false) ∧
    ((HandleStatusReply (some (RedisReply.mk REDIS_REPLY_NIL i p e)) s).ret = false ∧
      (HandleStringReply (some (RedisReply.mk REDIS_REPLY_NIL i p e)) s).ret = false ∧
      (HandleIntegerReply (some (RedisReply.mk REDIS_REPLY_NIL i p e)) n).ret = false ∧
      (HandleArrayReply (some (RedisReply.mk REDIS_REPLY_NIL i p e)) v).ret = false) ∧
    ((HandleStatusReply (some (RedisReply.mk REDIS_REPLY_ERROR i p e)) s).ret = false ∧
      (HandleStringReply (some (RedisReply.mk REDIS_REPLY_ERROR i p e)) s).ret = false ∧
      (HandleIntegerReply (some (RedisReply.mk REDIS_REPLY_ERROR i p e)) n).ret = false ∧
      (HandleArrayReply (some (RedisReply.mk REDIS_REPLY_ERROR i p e)) v).ret = false) ∧
    ((get context key s).ret = true ↔
      ∃ r0, context (Request.v "GET %b" [VArg.b (c_str key) key.length]) = some r0 ∧
        r0.type = REDIS_REPLY_STRING) ∧
    (get (fun _ => some (RedisReply.mk REDIS_REPLY_NIL i p e)) key s).ret = false := by
  refine ⟨?_, ?_, ?_, ?_, ?_, ?_, ?_, ?_, ?_⟩
  · rw [HandleStatusReply_some]; split <;> simp_all
  · rw [HandleStringReply_some]; split <;> simp_all
  · rw [HandleIntegerReply_some]; split <;> simp_all
  · rw [HandleArrayReply_some]; split <;> simp_all
  · simp [HandleStatusReply_none, HandleStringReply_none, HandleIntegerReply_none,
      HandleArrayReply_none]
  · simp [HandleStatusReply_some, HandleStringReply_some, HandleIntegerReply_some,
      HandleArrayReply_some, RedisReply.type, REDIS_REPLY_NIL, REDIS_REPLY_ERROR,
      REDIS_REPLY_STATUS, REDIS_REPLY_STRING, REDIS_REPLY_INTEGER, REDIS_REPLY_ARRAY]
  · simp [HandleStatusReply_some, HandleStringReply_some, HandleIntegerReply_some,
      HandleArrayReply_some, RedisReply.type, REDIS_REPLY_NIL, REDIS_REPLY_ERROR,
      REDIS_REPLY_STATUS, REDIS_REPLY_STRING, REDIS_REPLY_INTEGER, REDIS_REPLY_ARRAY]
  · unfold get execute
    cases h : context (Request.v "GET %b" [VArg.b (c_str key) key.length]) with
    | none => simp [HandleStringReply_none]
    | some r0 => rw [HandleStringReply_some]; split <;> simp_all
  · unfold get execute
    simp [HandleStringReply_some, RedisReply.type, REDIS_REPLY_NIL, REDIS_REPLY_STRING]

/-- C2, at the failing input: `HandleArrayReply` on the null reply and a vector that holds
the string "x" returns `ok = false` and leaves the vector as it was, the string "x"
still in it, where the claim has the empty sequence. -/
theorem C2_HandleArrayReply_null_keeps_output :
    (HandleArrayReply none [[120]]).ret = false ∧
    (HandleArrayReply none [[120]]).replied = [[120]] ∧
    (HandleArrayReply none [[120]]).replied ≠ [] := by
  decide

/-- Where the reset of C2 does hold: a failing `HandleStatusReply`, `HandleStringReply` or
`HandleIntegerReply` leaves the zero value whatever the reply is, and so does a failing
`HandleArrayReply` on a reply that is there. -/
theorem failed_decode_resets_output (reply : Option RedisReply) (r : RedisReply)
    (s : Bytes) (n : Int) (v : List Bytes) :
    ((HandleStatusReply reply s).ret = false → (HandleStatusReply reply s).replied = []) ∧
    ((HandleStringReply reply s).ret = false → (HandleStringReply reply s).replied = []) ∧
    ((HandleIntegerReply reply n).ret = false → (HandleIntegerReply reply n).replied = -1) ∧
    ((HandleArrayReply (some r) v).ret = false → (HandleArrayReply (some r) v).replied = []) := by
  refine ⟨?_, ?_, ?_, ?_⟩
  · cases reply with
    | none => simp [HandleStatusReply_none]
    | some r0 => rw [HandleStatusReply_some]; split <;> simp
  · cases reply with
    | none => simp [HandleStringReply_none]
    | some r0 => rw [HandleStringReply_some]; split <;> simp
  · cases reply with
    | none => simp [HandleIntegerReply_none]
    | some r0 => rw [HandleIntegerReply_some]; split <;> simp
  · rw [HandleArrayReply_some]; split <;> simp

/-- C5: a Status reply (for `HandleStatusReply`) or a String reply (for
`HandleStringReply`) whose payload is the byte string `b` decodes to `ok = true` and to a
string equal to `b`, byte for byte and of the same length, whatever bytes `b` holds, NUL
bytes and bytes that are no valid UTF-8 included. -/
theorem C5_string_payload_verbatim (b : Bytes) (i : Int) (e : List RedisReply) (old : Bytes) :
    (HandleStatusReply (some (RedisReply.mk REDIS_REPLY_STATUS i b e)) old).ret = true ∧
    (HandleStatusReply (some (RedisReply.mk REDIS_REPLY_STATUS i b e)) old).replied = b ∧
    (HandleStatusReply (some (RedisReply.mk REDIS_REPLY_STATUS i b e)) old).replied.length
      = (RedisReply.mk REDIS_REPLY_STATUS i b e).len ∧
    (HandleStringReply (some (RedisReply.mk REDIS_REPLY_STRING i b e)) old).ret = true ∧
    (HandleStringReply (some (RedisReply.mk REDIS_REPLY_STRING i b e)) old).replied = b ∧
    (HandleStringReply (some (RedisReply.mk REDIS_REPLY_STRING i b e)) old).replied.length
      = (RedisReply.mk REDIS_REPLY_STRING i b e).len := by
  simp [HandleStatusReply_some, HandleStringReply_some, RedisReply.type, RedisReply.str,
    RedisReply.len]

/-- C6: an Array reply with `n` children decodes through `HandleArrayReply` to `ok = true`
and to a sequence of exactly `n` strings, the `i`-th of which is the payload of the `i`-th
child, in the order of the reply; nothing of what the vector held before is left. -/
theorem C6_array_children_in_order (i : Int) (p : Bytes) (children : List RedisReply)
    (old : List Bytes) :
    (HandleArrayReply (some (RedisReply.mk REDIS_REPLY_ARRAY i p children)) old).ret = true ∧
    (HandleArrayReply (some (RedisReply.mk REDIS_REPLY_ARRAY i p children)) old).replied.length
      = (RedisReply.mk REDIS_REPLY_ARRAY i p children).elements ∧
    (∀ j : Nat,
      (HandleArrayReply (some (RedisReply.mk REDIS_REPLY_ARRAY i p children)) old).replied[j]?
        = (children[j]?).map RedisReply.str) ∧
    (HandleArrayReply (some (RedisReply.mk REDIS_REPLY_ARRAY i p children)) old).replied
      = children.map RedisReply.str := by
  simp [HandleArrayReply_some, RedisReply.type, RedisReply.element, RedisReply.elements]

/-- C7: an Integer reply that carries `n` decodes through `HandleIntegerReply` to
`(n, ok = true)`; so `expire` answered with the Integer reply `0` returns `(0, true)`, and
an Integer reply `-1` gives the same value as a failed decode, with the flag `true` where
the failed decode has `false`. -/
theorem C7_integer_reply_decodes (n : Int) (p : Bytes) (e : List RedisReply) (old : Int)
    (key : Bytes) (seconds : Nat) :
    (HandleIntegerReply (some (RedisReply.mk REDIS_REPLY_INTEGER n p e)) old).ret = true ∧
    (HandleIntegerReply (some (RedisReply.mk REDIS_REPLY_INTEGER n p e)) old).replied = n ∧
    ((expire (fun _ => some (RedisReply.mk REDIS_REPLY_INTEGER 0 p e)) key seconds old).ret = true ∧
      (expire (fun _ => some (RedisReply.mk REDIS_REPLY_INTEGER 0 p e)) key seconds old).replied = 0) ∧
    ((HandleIntegerReply (some (RedisReply.mk REDIS_REPLY_INTEGER (-1) p e)) old).replied
        = (HandleIntegerReply none old).replied ∧
      (HandleIntegerReply (some (RedisReply.mk REDIS_REPLY_INTEGER (-1) p e)) old).ret = true ∧
      (HandleIntegerReply none old).ret = false) := by
  simp [expire, execute, HandleIntegerReply_some, HandleIntegerReply_none, RedisReply.type,
    RedisReply.integer]

/-! ## `hgetall`: claims C3, C4 -/

/-- C3 as stated fails: for the Array reply `["a", "1", "a", "2"]` (four string elements,
`n = 2`) `hgetall` returns `ok = true` with a map of one entry, not two, and the key "a"
of the second pair is not mapped to its value "2". -/
theorem C3_counterexample_repeated_key :
    (hgetall (fun _ => some (RedisReply.mk REDIS_REPLY_ARRAY 0 []
        [RedisReply.mk REDIS_REPLY_STRING 0 [97] [], RedisReply.mk REDIS_REPLY_STRING 0 [49] [],
         RedisReply.mk REDIS_REPLY_STRING 0 [97] [], RedisReply.mk REDIS_REPLY_STRING 0 [50] []]))
      [104] []).result = Exec.returns (true, [([97], [49])]) ∧
    StdMap.size [([97], [49])] ≠ 2 ∧
    StdMap.find [([97], [49])] [97] ≠ some [50] := by
  refine ⟨?_, by decide, by decide⟩
  rw [hgetall_of_array _ [104] [] (RedisReply.mk REDIS_REPLY_ARRAY 0 []
    [RedisReply.mk REDIS_REPLY_STRING 0 [97] [], RedisReply.mk REDIS_REPLY_STRING 0 [49] [],
     RedisReply.mk REDIS_REPLY_STRING 0 [97] [], RedisReply.mk REDIS_REPLY_STRING 0 [50] []])
    rfl rfl]
  simp [RedisReply.element, RedisReply.str, flattenPairs, StdMap.emplace, StdMap.find]

/-- C3, amended: for every Array reply of `2n` string elements `[k0, v0, ..., k(n-1),
v(n-1)]` whose keys `k_i` are pairwise distinct, `hgetall` returns `ok = true` and a map
of exactly `n` entries in which every `k_i` is mapped to `v_i`; for `n = 0` the map is
empty. -/
theorem C3_hgetall_distinct_keys (context : Context) (key : Bytes) (old : StdMap)
    (r : RedisReply) (kvs : List (Bytes × Bytes))
    (hctx : context (Request.v "HGETALL %b" [VArg.b (c_str key) key.length]) = some r)
    (htype : r.type = REDIS_REPLY_ARRAY)
    (helems : r.element.map RedisReply.str = alternating kvs)
    (hdistinct : (kvs.map Prod.fst).Nodup) :
    ∃ m : StdMap, (hgetall context key old).result = Exec.returns (true, m) ∧
      m.size = kvs.length ∧
      (∀ i (hi : i < kvs.length), m.find (kvs.get ⟨i, hi⟩).1 = some (kvs.get ⟨i, hi⟩).2) ∧
      (kvs = [] → m = []) := by
  refine ⟨kvs, ?_, rfl, ?_, fun h => h⟩
  · rw [hgetall_of_array context key old r hctx htype, helems, flattenPairs_alternating,
      emplace_all_distinct kvs [] (by simpa using hdistinct)]
    simp
  · intro i hi
    exact StdMap.find_of_mem kvs hdistinct _ _ (List.get_mem kvs i hi)

/-- C3, amended, at the reply `["a", "1", "b", "2"]`. -/
theorem C3_hgetall_distinct_keys_witness :
    ∃ m : StdMap,
      (hgetall (fun _ => some (RedisReply.mk REDIS_REPLY_ARRAY 0 []
          [RedisReply.mk REDIS_REPLY_STRING 0 [97] [], RedisReply.mk REDIS_REPLY_STRING 0 [49] [],
           RedisReply.mk REDIS_REPLY_STRING 0 [98] [], RedisReply.mk REDIS_REPLY_STRING 0 [50] []]))
        [104] [([120], [121])]).result = Exec.returns (true, m) ∧
      m.size = [(([97] : Bytes), ([49] : Bytes)), ([98], [50])].length ∧
      (∀ i (hi : i < [(([97] : Bytes), ([49] : Bytes)), ([98], [50])].length),
        m.find ([(([97] : Bytes), ([49] : Bytes)), ([98], [50])].get ⟨i, hi⟩).1
          = some ([(([97] : Bytes), ([49] : Bytes)), ([98], [50])].get ⟨i, hi⟩).2) ∧
      ([(([97] : Bytes), ([49] : Bytes)), ([98], [50])] = [] → m = []) :=
  C3_hgetall_distinct_keys _ [104] [([120], [121])] _ [([97], [49]), ([98], [50])]
    rfl rfl rfl (by decide)

/-- What `hgetall` does with an Array reply of odd length: the flag of `HandleArrayReply`
is `true`, and the loop reads `items[sz]`, one past the last item; no `false` is
returned. -/
theorem hgetall_odd_array (context : Context) (key : Bytes) (old : StdMap) (r : RedisReply)
    (hctx : context (Request.v "HGETALL %b" [VArg.b (c_str key) key.length]) = some r)
    (htype : r.type = REDIS_REPLY_ARRAY) (hodd : r.elements % 2 = 1) :
    (hgetall context key old).result = Exec.outOfBounds := by
  rw [hgetall_of_array context key old r hctx htype,
    flattenPairs_odd _ [] (by simpa [RedisReply.elements] using hodd)]

/-- C4, at the failing input: for the Array reply `["a"]` of one element `hgetall` does
not return `ok = false`; it reads the vector of items past its end. -/
theorem C4_hgetall_odd_reads_past_end :
    (hgetall (fun _ => some (RedisReply.mk REDIS_REPLY_ARRAY 0 []
        [RedisReply.mk REDIS_REPLY_STRING 0 [97] []])) [104] []).result = Exec.outOfBounds ∧
    (hgetall (fun _ => some (RedisReply.mk REDIS_REPLY_ARRAY 0 []
        [RedisReply.mk REDIS_REPLY_STRING 0 [97] []])) [104] []).result
      ≠ Exec.returns (false, []) := by
  have h := hgetall_odd_array (fun _ => some (RedisReply.mk REDIS_REPLY_ARRAY 0 []
    [RedisReply.mk REDIS_REPLY_STRING 0 [97] []])) [104] [] _ rfl rfl (by decide)
  rw [h]
  exact ⟨rfl, by decide⟩

/-! ## Release of the reply: claim C8 -/

theorem ping_freed (context : Context) (msg : Bytes) :
    (ping context msg).freed = (context (ping context msg).sent).toList := by
  simp [ping, freeReplyObject_nil]

/-- C8: every decode operation releases a reply that is there exactly once, on the path
that succeeds and on the path that fails: the log of releases of `HandleStatusReply`,
`HandleStringReply`, `HandleIntegerReply` and `HandleArrayReply` on a reply `r` is `[r]`,
and the log of `ping` and of `hgetall` holds the reply the transport gave them, once,
and nothing when the transport gave the null pointer. -/
theorem C8_reply_released_exactly_once (r : RedisReply) (s : Bytes) (n : Int)
    (v : List Bytes) (context : Context) (msg key : Bytes) (m : StdMap) :
    (HandleStatusReply (some r) s).freed = [r] ∧
    (HandleStringReply (some r) s).freed = [r] ∧
    (HandleIntegerReply (some r) n).freed = [r] ∧
    (HandleArrayReply (some r) v).freed = [r] ∧
    (ping context msg).freed = (context (ping context msg).sent).toList ∧
    (ping (fun _ => some r) msg).freed = [r] ∧
    (hgetall context key m).freed
      = (context (Request.v "HGETALL %b" [VArg.b (c_str key) key.length])).toList ∧
    (hgetall (fun _ => some r) key m).freed = [r] := by
  refine ⟨?_, ?_, ?_, ?_, ping_freed context msg, ?_, hgetall_freed context key m, ?_⟩
  · rw [HandleStatusReply_some]; split <;> rfl
  · rw [HandleStringReply_some]; split <;> rfl
  · rw [HandleIntegerReply_some]; split <;> rfl
  · rw [HandleArrayReply_some]; split <;> rfl
  · rw [ping_freed]; rfl
  · rw [hgetall_freed]; rfl

/-! ## `ping`: claim C9 -/

/-- C9: `ping` with an empty `msg` submits `PING` with no argument and returns the payload
of the reply when its kind is Status; with a non-empty `msg` it submits `PING` with the
bytes of `msg` as its one argument and returns the payload of the reply when its kind is
String; in every other case (no reply, or a reply of another kind) it returns the empty
string. -/
theorem C9_ping_selects_expected_kind (context : Context) (b : UInt8) (bs : Bytes) :
    (ping context []).sent = Request.v "PING" [] ∧
    (ping context []).ret = payloadIfKind (context (Request.v "PING" [])) REDIS_REPLY_STATUS ∧
    (ping context (b :: bs)).sent
      = Request.v "PING %b" [VArg.b (c_str (b :: bs)) (b :: bs).length] ∧
    stdString (c_str (b :: bs)) (b :: bs).length = b :: bs ∧
    (ping context (b :: bs)).ret
      = payloadIfKind (context (Request.v "PING %b" [VArg.b (c_str (b :: bs)) (b :: bs).length]))
          REDIS_REPLY_STRING := by
  exact ⟨rfl, guarded_payload _ _, rfl, stdString_c_str _, guarded_payload _ _⟩

/-! ## The vector `execute`: claim C10 -/

theorem strlen_c_str (s : Bytes) : strlen (c_str s) = (untilNul s).length := by
  induction s with
  | nil => simp [c_str, strlen, untilNul]
  | cons b rest ih =>
    by_cases h : b = 0
    · simp [c_str, strlen, untilNul, h]
    · simpa [c_str, strlen, untilNul, h] using ih

theorem take_strlen_c_str (s : Bytes) : (c_str s).take (strlen (c_str s)) = untilNul s := by
  induction s with
  | nil => simp [c_str, strlen, untilNul]
  | cons b rest ih =>
    by_cases h : b = 0
    · simp [c_str, strlen, untilNul, h]
    · simpa [c_str, strlen, untilNul, h] using ih

theorem strdup_c_str (s : Bytes) : strdup (c_str s) = c_str (untilNul s) := by
  unfold strdup
  rw [take_strlen_c_str]
  rfl

theorem untilNul_idem (s : Bytes) : untilNul (untilNul s) = untilNul s := by
  induction s with
  | nil => rfl
  | cons b rest ih =>
    by_cases h : b = 0
    · simp [untilNul, h]
    · simp [untilNul, h, ih]

theorem untilNul_of_no_nul (s : Bytes) (h : (0 : UInt8) ∉ s) : untilNul s = s := by
  induction s with
  | nil => rfl
  | cons b rest ih =>
    simp only [List.mem_cons, not_or] at h
    have hb : ¬ b = 0 := fun e => h.1 e.symm
    simp [untilNul, hb, ih h.2]

/-- What the vector `execute` submits: `args.size() + 1` entries, each of them the verb or
the argument cut at its first NUL byte. -/
theorem executeArgv_transmits (command : Bytes) (args : List Bytes) :
    executeArgvRequest command args
      = Request.argv (args.length + 1) (executeArgvArgv command args)
          (argLens (executeArgvArgv command args)) ∧
    transmitted (executeArgvArgv command args) (argLens (executeArgvArgv command args))
      = untilNul command :: args.map untilNul := by
  refine ⟨rfl, ?_⟩
  have hone : ∀ s : Bytes,
      stdString (strdup (c_str s)) (strlen (strdup (c_str s))) = untilNul s := by
    intro s
    rw [strdup_c_str, strlen_c_str, untilNul_idem]
    exact stdString_c_str _
  have hall : ∀ l : List Bytes,
      transmitted (dupArgs l) (argLens (dupArgs l)) = l.map untilNul := by
    intro l
    induction l with
    | nil => rfl
    | cons a rest ih =>
      simp only [dupArgs, argLens, transmitted, List.map_cons, List.zipWith_cons_cons] at ih ⊢
      rw [hone, ih]
  simp only [executeArgvArgv, argLens, transmitted, List.map_cons, List.zipWith_cons_cons]
  rw [hone]
  exact congrArg _ (hall args)

/-- Where C10 does hold: when neither the verb nor any argument holds a NUL byte, the
vector `execute` submits `args.size() + 1` entries, the verb first and then the arguments
in order, each whole. -/
theorem executeArgv_without_nul (command : Bytes) (args : List Bytes)
    (hc : (0 : UInt8) ∉ command) (ha : ∀ a ∈ args, (0 : UInt8) ∉ a) :
    transmitted (executeArgvArgv command args) (argLens (executeArgvArgv command args))
      = command :: args := by
  rw [(executeArgv_transmits command args).2, untilNul_of_no_nul command hc]
  congr 1
  calc args.map untilNul = args.map id :=
        List.map_congr_left (fun a h => untilNul_of_no_nul a (ha a h))
    _ = args := List.map_id args

/-- C10, at the failing input: for the verb `DEL` and the one argument "a\0b" (three
bytes, a NUL in the middle) the vector `execute` submits two entries, and the entry of the
argument is "a" with the length 1, not "a\0b" with the length 3. -/
theorem C10_execute_truncates_at_nul :
    executeArgvRequest [68, 69, 76] [[97, 0, 98]]
      = Request.argv 2 [[68, 69, 76, 0], [97, 0]] [3, 1] ∧
    transmitted [[68, 69, 76, 0], [97, 0]] [3, 1] = [[68, 69, 76], [97]] ∧
    transmitted [[68, 69, 76, 0], [97, 0]] [3, 1] ≠ [[68, 69, 76], [97, 0, 98]] := by
  decide

/-! ## The synchronous connection: claims C11, C12 -/

theorem released_append (xs ys : List SyncCall) :
    released (xs ++ ys) = released xs ++ released ys := by
  induction xs with
  | nil => rfl
  | cons x rest ih => cases x <;> simp [released, ih]

theorem Clean_released (self : MiniRedisClient) :
    released self.Clean.calls = self.context.toList ∧ self.Clean.self.context = none := by
  unfold MiniRedisClient.Clean
  cases h : self.context <;> simp [released, h]

theorem Connect_ok (self : MiniRedisClient) (c : RedisContext) (hc : c.err = 0) :
    (self.Connect (some c)).ret = true ∧
    (self.Connect (some c)).self.context = some c ∧
    (self.Connect (some c)).calls = self.Clean.calls ++
      [SyncCall.redisConnectWithTimeout self.host self.port self.timeoutSeconds] := by
  unfold MiniRedisClient.Connect MiniRedisClient.Clean
  cases h : self.context <;> simp [hc]

/-- What a failed `Connect()` on a context with its error flag set leaves: the context is
handed to `redisFree`, and the member `context` still points to it, so the next `Clean`
hands it to `redisFree` again. -/
theorem Connect_err (self : MiniRedisClient) (c : RedisContext) (hc : c.err ≠ 0) :
    (self.Connect (some c)).ret = false ∧
    (self.Connect (some c)).self.context = some c ∧
    released (self.Connect (some c)).calls = self.context.toList ++ [c] ∧
    released (self.Connect (some c)).self.Clean.calls = [c] := by
  have hcalls : (self.Connect (some c)).calls = self.Clean.calls ++
      [SyncCall.redisConnectWithTimeout self.host self.port self.timeoutSeconds,
        SyncCall.redisFree c] := by
    unfold MiniRedisClient.Connect MiniRedisClient.Clean
    cases h : self.context <;> simp [hc]
  have hctx : (self.Connect (some c)).self.context = some c := by
    unfold MiniRedisClient.Connect
    simp [hc]
  refine ⟨?_, hctx, ?_, ?_⟩
  · unfold MiniRedisClient.Connect
    simp [hc]
  · rw [hcalls, released_append, (Clean_released self).1]
    rfl
  · rw [(Clean_released _).1, hctx]
    rfl

theorem connectEach_released :
    ∀ (answers : List RedisContext) (self : MiniRedisClient), (∀ a ∈ answers, a.err = 0) →
      released (connectEach self answers).2 = (self.context.toList ++ answers).dropLast ∧
      (connectEach self answers).1.context = (self.context.toList ++ answers).getLast?
  | [], self, _ => by
    cases h : self.context <;> simp [connectEach, released, h]
  | c :: rest, self, hok => by
    have hc : c.err = 0 := hok c (List.mem_cons_self c rest)
    have hstep := Connect_ok self c hc
    have ih := connectEach_released rest (self.Connect (some c)).self
      (fun a ha => hok a (List.mem_cons_of_mem c ha))
    rw [hstep.2.1] at ih
    simp only [connectEach, released_append, hstep.2.2, (Clean_released self).1, ih.1, ih.2]
    constructor
    · have h0 : released
          [SyncCall.redisConnectWithTimeout self.host self.port self.timeoutSeconds] = [] := rfl
      rw [h0, List.append_nil]
      exact (List.dropLast_append_of_ne_nil _ (List.cons_ne_nil c rest)).symm
    · have hsome : (c :: rest).getLast? = some ((c :: rest).getLast (List.cons_ne_nil c rest)) :=
        List.getLast?_eq_getLast _ _
      simp [List.getLast?_append, hsome]

/-- C11, at the failing input: `Connect()` on a fresh client, answered by the transport
with a context whose error flag is set, returns `false` and hands the context to
`redisFree` once, and the client still holds the released context: the `Clean` of a retry
or of the destructor hands it to `redisFree` a second time. -/
theorem C11_failed_Connect_keeps_released_context :
    (MiniRedisClient.Init.Connect (some ⟨1, 1⟩)).ret = false ∧
    released (MiniRedisClient.Init.Connect (some ⟨1, 1⟩)).calls = [⟨1, 1⟩] ∧
    (MiniRedisClient.Init.Connect (some ⟨1, 1⟩)).self.context = some ⟨1, 1⟩ ∧
    (MiniRedisClient.Init.Connect (some ⟨1, 1⟩)).self.context ≠ none ∧
    released (MiniRedisClient.Init.Connect (some ⟨1, 1⟩)).self.Clean.calls = [⟨1, 1⟩] ∧
    released ((MiniRedisClient.Init.Connect (some ⟨1, 1⟩)).calls ++
        ((MiniRedisClient.Init.Connect (some ⟨1, 1⟩)).self.Connect (some ⟨2, 0⟩)).calls)
      = [⟨1, 1⟩, ⟨1, 1⟩] := by
  decide

/-- C12: a `Connect()` made while the client holds the context `h` first hands `h` to
`redisFree` and then calls `redisConnectWithTimeout`, whatever the transport answers; when
the answer is a context without error the call returns `true`, these two are its only
calls and the client holds the new context; and after any run of successful `Connect()`
calls the contexts released are `h` and all answers but the last, in order, while the
client holds the last answer, so that with pairwise distinct contexts none is released
twice, the one held is not released, and every other one is released. -/
theorem C12_Connect_releases_held_context_first (self : MiniRedisClient)
    (h c : RedisContext) (answer : Option RedisContext) (answers : List RedisContext)
    (hheld : self.context = some h) (hc : c.err = 0) (hok : ∀ a ∈ answers, a.err = 0) :
    (self.Connect answer).calls.take 2 = [SyncCall.redisFree h,
      SyncCall.redisConnectWithTimeout self.host self.port self.timeoutSeconds] ∧
    ((self.Connect (some c)).ret = true ∧
      (self.Connect (some c)).calls = [SyncCall.redisFree h,
        SyncCall.redisConnectWithTimeout self.host self.port self.timeoutSeconds] ∧
      (self.Connect (some c)).self.context = some c) ∧
    released (connectEach self answers).2 = (h :: answers).dropLast ∧
    (connectEach self answers).1.context = (h :: answers).getLast? ∧
    ((h :: answers).Nodup →
      (released (connectEach self answers).2).Nodup ∧
      (∀ held, (connectEach self answers).1.context = some held →
        held ∉ released (connectEach self answers).2 ∧
        ∀ x ∈ h :: answers, x ≠ held → x ∈ released (connectEach self answers).2)) := by
  have hclean : self.Clean.calls = [SyncCall.redisFree h] := by
    simp [MiniRedisClient.Clean, hheld]
  have hseq := connectEach_released answers self hok
  rw [hheld] at hseq
  simp only [Option.toList, List.singleton_append] at hseq
  refine ⟨?_, ⟨(Connect_ok self c hc).1, ?_, (Connect_ok self c hc).2.1⟩, hseq.1, hseq.2, ?_⟩
  · unfold MiniRedisClient.Connect
    cases answer with
    | none => simp [MiniRedisClient.Clean, hheld]
    | some a => by_cases ha : a.err = 0 <;> simp [MiniRedisClient.Clean, hheld, ha]
  · rw [(Connect_ok self c hc).2.2, hclean]
    rfl
  · intro hnodup
    rw [hseq.1, hseq.2]
    have hsplit : (h :: answers).dropLast ++ [(h :: answers).getLast (List.cons_ne_nil _ _)]
        = h :: answers := List.dropLast_append_getLast _
    have hlast : (h :: answers).getLast? = some ((h :: answers).getLast (List.cons_ne_nil _ _)) :=
      List.getLast?_eq_getLast _ _
    rw [← hsplit] at hnodup
    have hparts := List.nodup_append.mp hnodup
    refine ⟨hparts.1, ?_⟩
    intro held hheld2
    rw [hlast] at hheld2
    cases hheld2
    refine ⟨fun hmem => hparts.2.2 hmem (by simp), ?_⟩
    intro x hx hne
    rw [← hsplit] at hx
    rcases List.mem_append.mp hx with hx | hx
    · exact hx
    · exact absurd (by simpa using hx) hne

/-- C12 on a client that holds the context 1 and is connected again twice, with the
answers 2 and 3. -/
theorem C12_Connect_releases_held_context_first_witness :
    ((MiniRedisClient.mk [] 6379 3 (some ⟨1, 0⟩)).Connect (some ⟨2, 0⟩)).calls.take 2
      = [SyncCall.redisFree ⟨1, 0⟩, SyncCall.redisConnectWithTimeout [] 6379 3] ∧
    released (connectEach (MiniRedisClient.mk [] 6379 3 (some ⟨1, 0⟩)) [⟨2, 0⟩, ⟨3, 0⟩]).2
      = [⟨1, 0⟩, ⟨2, 0⟩] ∧
    (connectEach (MiniRedisClient.mk [] 6379 3 (some ⟨1, 0⟩)) [⟨2, 0⟩, ⟨3, 0⟩]).1.context
      = some ⟨3, 0⟩ := by
  have h := C12_Connect_releases_held_context_first
    (MiniRedisClient.mk [] 6379 3 (some ⟨1, 0⟩))
    ⟨1, 0⟩ ⟨2, 0⟩ (some ⟨2, 0⟩) [⟨2, 0⟩, ⟨3, 0⟩] rfl rfl (by decide)
  exact ⟨h.1, h.2.2.1, h.2.2.2.1⟩

/-! ## The router `OnSubscribeMsg`: claims C13, C14, C15, C16 -/

/-- The router on an array of three elements, the only frames it looks into. -/
theorem OnSubscribeMsg_three (self : MiniRedisPubSub) (i : Int) (p : Bytes)
    (e0 e1 e2 : RedisReply) :
    MiniRedisPubSub.OnSubscribeMsg (some self)
        (some (RedisReply.mk REDIS_REPLY_ARRAY i p [e0, e1, e2])) =
      if e0.str = subscribeLiteral then
        { self := some self, effects := [Effect.readElement 0, Effect.cout Line.subscribeAck] }
      else if e0.str = unsubscribeLiteral then
        { self := some self,
          effects := [Effect.readElement 0, Effect.cout Line.unsubscribeAck] }
      else
        match self.subCb with
        | some cb =>
          { self := some self,
            effects := [Effect.readElement 0, Effect.readElement 1, Effect.readElement 2,
              Effect.subCb cb e1.str e2.str] }
        | none =>
          { self := some self,
            effects := [Effect.readElement 0, Effect.readElement 1, Effect.readElement 2,
              Effect.cout (Line.subscribeChannel e1.str e2.str)] } := by
  simp [MiniRedisPubSub.OnSubscribeMsg, RedisReply.type, RedisReply.elements,
    RedisReply.element, stdString_strPtr]

/-- The router never assigns to the object: whatever the frame, the object after the call
is the object before it. -/
theorem OnSubscribeMsg_self (pThis : Option MiniRedisPubSub) (reply : Option RedisReply) :
    (MiniRedisPubSub.OnSubscribeMsg pThis reply).self = pThis := by
  simp only [MiniRedisPubSub.OnSubscribeMsg]
  repeat' split
  all_goals rfl

/-- C13: for a frame that is an Array of exactly three elements whose first element is
neither "subscribe" nor "unsubscribe", and with a callback registered, the router calls
that callback exactly once, with the bytes of element 1 as the channel and the bytes of
element 2 as the payload. -/
theorem C13_message_frame_invokes_callback_once (self : MiniRedisPubSub) (cb : Nat)
    (i : Int) (p : Bytes) (e0 e1 e2 : RedisReply)
    (hcb : self.subCb = some cb)
    (hsub : e0.str ≠ subscribeLiteral) (hunsub : e0.str ≠ unsubscribeLiteral) :
    callbacks (MiniRedisPubSub.OnSubscribeMsg (some self)
        (some (RedisReply.mk REDIS_REPLY_ARRAY i p [e0, e1, e2]))).effects
      = [(cb, e1.str, e2.str)] := by
  rw [OnSubscribeMsg_three]
  simp [hsub, hunsub, hcb, callbacks]

/-- C13 on the frame `["message", "ch", "hello"]` with the callback 7 registered on a
fresh object; the payload may hold any bytes, here "he\0lo". -/
theorem C13_message_frame_invokes_callback_once_witness :
    callbacks (MiniRedisPubSub.OnSubscribeMsg
        (some (MiniRedisPubSub.Init.SetSubscribeCb (some 7)))
        (some (RedisReply.mk REDIS_REPLY_ARRAY 0 []
          [RedisReply.mk REDIS_REPLY_STRING 0 [109, 101, 115, 115, 97, 103, 101] [],
           RedisReply.mk REDIS_REPLY_STRING 0 [99, 104] [],
           RedisReply.mk REDIS_REPLY_STRING 0 [104, 101, 0, 108, 111] []]))).effects
      = [(7, (RedisReply.mk REDIS_REPLY_STRING 0 [99, 104] []).str,
          (RedisReply.mk REDIS_REPLY_STRING 0 [104, 101, 0, 108, 111] []).str)] :=
  C13_message_frame_invokes_callback_once (MiniRedisPubSub.Init.SetSubscribeCb (some 7)) 7 0 []
    _ _ _ rfl (by decide) (by decide)

/-- C14: for a frame of three elements whose first element is exactly "subscribe" or
exactly "unsubscribe" the router calls the callback zero times, whatever the other two
elements are and whether a callback is registered or not. -/
theorem C14_ack_frame_invokes_no_callback (self : MiniRedisPubSub) (i : Int) (p : Bytes)
    (t0 i0 : Int) (c0 : List RedisReply) (e1 e2 : RedisReply) :
    callbacks (MiniRedisPubSub.OnSubscribeMsg (some self)
        (some (RedisReply.mk REDIS_REPLY_ARRAY i p
          [RedisReply.mk t0 i0 subscribeLiteral c0, e1, e2]))).effects = [] ∧
    callbacks (MiniRedisPubSub.OnSubscribeMsg (some self)
        (some (RedisReply.mk REDIS_REPLY_ARRAY i p
          [RedisReply.mk t0 i0 unsubscribeLiteral c0, e1, e2]))).effects = [] := by
  constructor
  · rw [OnSubscribeMsg_three]
    simp [RedisReply.str, callbacks]
  · rw [OnSubscribeMsg_three]
    have hne : unsubscribeLiteral ≠ subscribeLiteral := by decide
    simp [RedisReply.str, callbacks, hne]

/-- C15: a frame that is absent, is no Array, or is an Array of a number of elements other
than three is dropped: the router returns with no call of the callback and no read of an
element, and the object (async handle, event base, callback, host, port) is as before. -/
theorem C15_malformed_frame_dropped (pThis : Option MiniRedisPubSub)
    (reply : Option RedisReply)
    (hshape : reply = none ∨
      ∃ r, reply = some r ∧ (r.type ≠ REDIS_REPLY_ARRAY ∨ r.elements ≠ 3)) :
    callbacks (MiniRedisPubSub.OnSubscribeMsg pThis reply).effects = [] ∧
    elementReads (MiniRedisPubSub.OnSubscribeMsg pThis reply).effects = [] ∧
    submitted (MiniRedisPubSub.OnSubscribeMsg pThis reply).effects = [] ∧
    (MiniRedisPubSub.OnSubscribeMsg pThis reply).self = pThis := by
  refine ⟨?_, ?_, ?_, OnSubscribeMsg_self pThis reply⟩ <;>
  · cases pThis with
    | none => simp [MiniRedisPubSub.OnSubscribeMsg, callbacks, elementReads, submitted]
    | some self =>
      rcases hshape with h | ⟨r, h, hr⟩
      · simp [MiniRedisPubSub.OnSubscribeMsg, h, callbacks, elementReads, submitted]
      · by_cases ht : r.type = REDIS_REPLY_ARRAY
        · have h3 : r.elements ≠ 3 := hr.resolve_left (fun hn => hn ht)
          simp [MiniRedisPubSub.OnSubscribeMsg, h, ht, h3, callbacks, elementReads, submitted]
        · simp [MiniRedisPubSub.OnSubscribeMsg, h, ht, callbacks, elementReads, submitted]

/-- C15 on an Array of two elements and a fresh object. -/
theorem C15_malformed_frame_dropped_witness :
    (callbacks (MiniRedisPubSub.OnSubscribeMsg (some MiniRedisPubSub.Init)
        (some (RedisReply.mk REDIS_REPLY_ARRAY 0 []
          [RedisReply.mk REDIS_REPLY_STRING 0 [109] [],
           RedisReply.mk REDIS_REPLY_STRING 0 [99] []]))).effects = [] ∧
      elementReads (MiniRedisPubSub.OnSubscribeMsg (some MiniRedisPubSub.Init)
        (some (RedisReply.mk REDIS_REPLY_ARRAY 0 []
          [RedisReply.mk REDIS_REPLY_STRING 0 [109] [],
           RedisReply.mk REDIS_REPLY_STRING 0 [99] []]))).effects = [] ∧
      submitted (MiniRedisPubSub.OnSubscribeMsg (some MiniRedisPubSub.Init)
        (some (RedisReply.mk REDIS_REPLY_ARRAY 0 []
          [RedisReply.mk REDIS_REPLY_STRING 0 [109] [],
           RedisReply.mk REDIS_REPLY_STRING 0 [99] []]))).effects = [] ∧
      (MiniRedisPubSub.OnSubscribeMsg (some MiniRedisPubSub.Init)
        (some (RedisReply.mk REDIS_REPLY_ARRAY 0 []
          [RedisReply.mk REDIS_REPLY_STRING 0 [109] [],
           RedisReply.mk REDIS_REPLY_STRING 0 [99] []]))).self = some MiniRedisPubSub.Init) :=
  C15_malformed_frame_dropped (some MiniRedisPubSub.Init) _
    (Or.inr ⟨_, rfl, Or.inr (by decide)⟩)

/-- C16 as stated fails: on a fresh object the frame `["subscribe", "ch", "1"]` and the
frame `["unsubscribe", "ch", "0"]` both leave the object exactly as it was, so nothing
read off the object can hold "ch" after the first and not hold it after the second. -/
theorem C16_counterexample_no_subscription_state :
    (MiniRedisPubSub.OnSubscribeMsg (some MiniRedisPubSub.Init)
        (some (RedisReply.mk REDIS_REPLY_ARRAY 0 []
          [RedisReply.mk REDIS_REPLY_STRING 0 subscribeLiteral [],
           RedisReply.mk REDIS_REPLY_STRING 0 [99, 104] [],
           RedisReply.mk REDIS_REPLY_INTEGER 1 [] []]))).self = some MiniRedisPubSub.Init ∧
    (MiniRedisPubSub.OnSubscribeMsg (some MiniRedisPubSub.Init)
        (some (RedisReply.mk REDIS_REPLY_ARRAY 0 []
          [RedisReply.mk REDIS_REPLY_STRING 0 unsubscribeLiteral [],
           RedisReply.mk REDIS_REPLY_STRING 0 [99, 104] [],
           RedisReply.mk REDIS_REPLY_INTEGER 0 [] []]))).self = some MiniRedisPubSub.Init ∧
    ¬ ∃ subscribed : Option MiniRedisPubSub → Bytes → Bool,
      subscribed (MiniRedisPubSub.OnSubscribeMsg (some MiniRedisPubSub.Init)
        (some (RedisReply.mk REDIS_REPLY_ARRAY 0 []
          [RedisReply.mk REDIS_REPLY_STRING 0 subscribeLiteral [],
           RedisReply.mk REDIS_REPLY_STRING 0 [99, 104] [],
           RedisReply.mk REDIS_REPLY_INTEGER 1 [] []]))).self [99, 104] = true ∧
      subscribed (MiniRedisPubSub.OnSubscribeMsg (some MiniRedisPubSub.Init)
        (some (RedisReply.mk REDIS_REPLY_ARRAY 0 []
          [RedisReply.mk REDIS_REPLY_STRING 0 unsubscribeLiteral [],
           RedisReply.mk REDIS_REPLY_STRING 0 [99, 104] [],
           RedisReply.mk REDIS_REPLY_INTEGER 0 [] []]))).self [99, 104] = false := by
  refine ⟨OnSubscribeMsg_self _ _, OnSubscribeMsg_self _ _, ?_⟩
  rintro ⟨subscribed, h1, h2⟩
  rw [OnSubscribeMsg_self] at h1 h2
  rw [h1] at h2
  exact Bool.noConfusion h2

/-- C16, amended: the async connection keeps no Subscription State. Processing a subscribe
ACK frame, an unsubscribe ACK frame or a message frame leaves every data member of the
object (host, port, async handle, event base, callback) unchanged; an ACK frame is only
reported on `std::cout`, after a read of its first element. -/
theorem C16_frames_leave_object_unchanged (pThis : Option MiniRedisPubSub)
    (reply : Option RedisReply) (self : MiniRedisPubSub) (i : Int) (p : Bytes)
    (t0 i0 : Int) (c0 : List RedisReply) (e1 e2 : RedisReply) :
    (MiniRedisPubSub.OnSubscribeMsg pThis reply).self = pThis ∧
    MiniRedisPubSub.OnSubscribeMsg (some self)
        (some (RedisReply.mk REDIS_REPLY_ARRAY i p
          [RedisReply.mk t0 i0 subscribeLiteral c0, e1, e2]))
      = { self := some self,
          effects := [Effect.readElement 0, Effect.cout Line.subscribeAck] } ∧
    MiniRedisPubSub.OnSubscribeMsg (some self)
        (some (RedisReply.mk REDIS_REPLY_ARRAY i p
          [RedisReply.mk t0 i0 unsubscribeLiteral c0, e1, e2]))
      = { self := some self,
          effects := [Effect.readElement 0, Effect.cout Line.unsubscribeAck] } := by
  refine ⟨OnSubscribeMsg_self pThis reply, ?_, ?_⟩
  · rw [OnSubscribeMsg_three]
    simp [RedisReply.str]
  · rw [OnSubscribeMsg_three]
    have hne : unsubscribeLiteral ≠ subscribeLiteral := by decide
    simp [RedisReply.str, hne]

/-! ## The asynchronous connection: claims C17, C18, C19, C20 -/

/-- C17: on an object that holds no async handle, `Publish`, `Subscribe` and `Unsubscribe`
return `false` for every channel and content, hand no command to `redisAsyncCommand` (they
have no effect at all) and leave every data member as it was. -/
theorem C17_disconnected_submission_fails_fast (self : MiniRedisPubSub)
    (channel content : Bytes) (answer : Int) (hdisc : self.asyncContext = none) :
    self.Publish channel content answer = { ret := false, self := self, effects := [] } ∧
    self.Subscribe channel answer = { ret := false, self := self, effects := [] } ∧
    self.Unsubscribe channel answer = { ret := false, self := self, effects := [] } ∧
    submitted (self.Publish channel content answer).effects = [] ∧
    submitted (self.Subscribe channel answer).effects = [] ∧
    submitted (self.Unsubscribe channel answer).effects = [] := by
  simp [MiniRedisPubSub.Publish, MiniRedisPubSub.Subscribe, MiniRedisPubSub.Unsubscribe,
    hdisc, submitted]

/-- C17 on a fresh object, and on an object after `Connect` and `Disconnect`, for the
channel "ch" and the content "x". -/
theorem C17_disconnected_submission_fails_fast_witness :
    (MiniRedisPubSub.Init.Publish [99, 104] [120] 0
        = { ret := false, self := MiniRedisPubSub.Init, effects := [] } ∧
      MiniRedisPubSub.Init.Subscribe [99, 104] 0
        = { ret := false, self := MiniRedisPubSub.Init, effects := [] } ∧
      MiniRedisPubSub.Init.Unsubscribe [99, 104] 0
        = { ret := false, self := MiniRedisPubSub.Init, effects := [] } ∧
      submitted (MiniRedisPubSub.Init.Publish [99, 104] [120] 0).effects = [] ∧
      submitted (MiniRedisPubSub.Init.Subscribe [99, 104] 0).effects = [] ∧
      submitted (MiniRedisPubSub.Init.Unsubscribe [99, 104] 0).effects = []) ∧
    ((MiniRedisPubSub.Init.Connect (some ⟨1, 0⟩) (some ⟨7⟩)).self.Disconnect.self.Publish
        [99, 104] [120] 0).ret = false :=
  ⟨C17_disconnected_submission_fails_fast MiniRedisPubSub.Init [99, 104] [120] 0 rfl,
    congrArg AsyncDone.ret
      (C17_disconnected_submission_fails_fast
        (MiniRedisPubSub.Init.Connect (some ⟨1, 0⟩) (some ⟨7⟩)).self.Disconnect.self
        [99, 104] [120] 0 rfl).1⟩

/-- C18: on an object that holds the async handle `ac` and the event base `e`, `Disconnect`
hands `ac` to `redisAsyncDisconnect` once and `e` to `event_base_free` once, after
`event_base_loopbreak`, and leaves the object holding neither; on any object, a second
`Disconnect` (or the destructor, which runs `Disconnect`) right after a first one returns
`false`, has no effect and leaves the object as the first one left it. -/
theorem C18_Disconnect_twice (self : MiniRedisPubSub) (ac : RedisAsyncContext)
    (e : EventBase) :
    ({ self with asyncContext := some ac, evt := some e } : MiniRedisPubSub).Disconnect
      = { ret := true, self := { self with asyncContext := none, evt := none },
          effects := [Effect.redisAsyncDisconnect ac, Effect.event_base_loopbreak (some e),
            Effect.event_base_free (some e)] } ∧
    self.Disconnect.self.asyncContext = none ∧
    self.Disconnect.self.Disconnect
      = { ret := false, self := self.Disconnect.self, effects := [] } ∧
    self.Disconnect.self.Disconnect.self = self.Disconnect.self := by
  have hnone : self.Disconnect.self.asyncContext = none := by
    unfold MiniRedisPubSub.Disconnect
    cases h : self.asyncContext <;> simp [h]
  have hsecond : self.Disconnect.self.Disconnect
      = { ret := false, self := self.Disconnect.self, effects := [] } := by
    generalize self.Disconnect.self = s at hnone
    simp [MiniRedisPubSub.Disconnect, hnone]
  refine ⟨rfl, hnone, hsecond, ?_⟩
  rw [hsecond]

/-- The async `Connect()` releases nothing: no async handle is handed to
`redisAsyncDisconnect` and no event base to `event_base_free`, whatever the object holds
and whatever the transport answers. -/
theorem async_Connect_releases_nothing (self : MiniRedisPubSub)
    (answer : Option RedisAsyncContext) (newBase : Option EventBase)
    (ac : RedisAsyncContext) (e : Option EventBase) :
    Effect.redisAsyncDisconnect ac ∉ (self.Connect answer newBase).effects ∧
    Effect.event_base_free e ∉ (self.Connect answer newBase).effects := by
  unfold MiniRedisPubSub.Connect
  cases answer with
  | none => simp
  | some a =>
    by_cases ha : a.err = 0
    · cases h : self.evt <;> simp [ha, h]
    · simp [ha]

/-- The half of C20 that holds: an async `Connect()` to which the transport gives no
context returns `false` and leaves the object without an async handle. -/
theorem async_Connect_no_context (self : MiniRedisPubSub) (newBase : Option EventBase) :
    (self.Connect none newBase).ret = false ∧
    (self.Connect none newBase).self.asyncContext = none := by
  simp [MiniRedisPubSub.Connect]

/-- C19, at the failing input: a fresh object is connected (handle 1, event base 7) and
then `Connect()` is called again (handle 2). The second call makes no release: its effects
are the new connection, the attach, the two callbacks and a second thread; the object then
holds handle 2, and handle 1 has been overwritten without being released. -/
theorem C19_async_Connect_overwrites_held_handle :
    (MiniRedisPubSub.Init.Connect (some ⟨1, 0⟩) (some ⟨7⟩)).self.asyncContext = some ⟨1, 0⟩ ∧
    ((MiniRedisPubSub.Init.Connect (some ⟨1, 0⟩) (some ⟨7⟩)).self.Connect (some ⟨2, 0⟩)
        (some ⟨8⟩)).effects
      = [Effect.redisAsyncConnect MiniRedisPubSub.Init.host 6379,
          Effect.redisLibeventAttach ⟨2, 0⟩ (some ⟨7⟩),
          Effect.redisAsyncSetConnectCallback ⟨2, 0⟩,
          Effect.redisAsyncSetDisconnectCallback ⟨2, 0⟩, Effect.threadDetached] ∧
    Effect.redisAsyncDisconnect ⟨1, 0⟩ ∉
      ((MiniRedisPubSub.Init.Connect (some ⟨1, 0⟩) (some ⟨7⟩)).self.Connect (some ⟨2, 0⟩)
        (some ⟨8⟩)).effects ∧
    ((MiniRedisPubSub.Init.Connect (some ⟨1, 0⟩) (some ⟨7⟩)).self.Connect (some ⟨2, 0⟩)
        (some ⟨8⟩)).self.asyncContext = some ⟨2, 0⟩ := by
  decide

/-- C20, at the failing input: `Connect()` on a fresh object, answered by the transport
with a context whose error flag is set, returns `false` and leaves the object holding that
context. A following `Publish` does not fail fast but hands a command to
`redisAsyncCommand`; a following `Disconnect` is no no-op: it returns `true` and calls
`redisAsyncDisconnect`, `event_base_loopbreak` and `event_base_free`, the last two on a
null event base; a following `Connect()` overwrites the failed context without releasing
it. -/
theorem C20_failed_async_Connect_keeps_context :
    (MiniRedisPubSub.Init.Connect (some ⟨1, 1⟩) (some ⟨7⟩)).ret = false ∧
    (MiniRedisPubSub.Init.Connect (some ⟨1, 1⟩) (some ⟨7⟩)).self.asyncContext
      = some ⟨1, 1⟩ ∧
    (MiniRedisPubSub.Init.Connect (some ⟨1, 1⟩) (some ⟨7⟩)).self.asyncContext ≠ none ∧
    submitted ((MiniRedisPubSub.Init.Connect (some ⟨1, 1⟩) (some ⟨7⟩)).self.Publish
        [99, 104] [120] 0).effects
      = [("PUBLISH %b %b", [VArg.b [99, 104, 0] 2, VArg.b [120, 0] 1])] ∧
    (MiniRedisPubSub.Init.Connect (some ⟨1, 1⟩) (some ⟨7⟩)).self.Disconnect
      = { ret := true, self := MiniRedisPubSub.Init,
          effects := [Effect.redisAsyncDisconnect ⟨1, 1⟩, Effect.event_base_loopbreak none,
            Effect.event_base_free none] } ∧
    Effect.redisAsyncDisconnect ⟨1, 1⟩ ∉
      ((MiniRedisPubSub.Init.Connect (some ⟨1, 1⟩) (some ⟨7⟩)).self.Connect (some ⟨2, 0⟩)
        (some ⟨7⟩)).effects ∧
    ((MiniRedisPubSub.Init.Connect (some ⟨1, 1⟩) (some ⟨7⟩)).self.Connect (some ⟨2, 0⟩)
        (some ⟨7⟩)).self.asyncContext = some ⟨2, 0⟩ := by
  decide

/-! ## `GetRawContext`: claim C21 -/

theorem Connect_released_subset (self : MiniRedisClient) (answer : Option RedisContext) :
    ∀ x ∈ released (self.Connect answer).calls, self.context = some x ∨ answer = some x := by
  intro x hx
  unfold MiniRedisClient.Connect MiniRedisClient.Clean at hx
  cases hctx : self.context with
  | none =>
    cases answer with
    | none => simp [hctx, released] at hx
    | some a =>
      by_cases ha : a.err = 0
      · simp [hctx, released, ha] at hx
      · simp [hctx, released, ha] at hx
        exact Or.inr (by rw [hx])
  | some h =>
    cases answer with
    | none =>
      simp [hctx, released] at hx
      exact Or.inl (by rw [hx])
    | some a =>
      by_cases ha : a.err = 0
      · simp [hctx, released, ha] at hx
        exact Or.inl (by rw [hx])
      · simp [hctx, released, ha] at hx
        rcases hx with hx | hx
        · exact Or.inl (by rw [hx])
        · exact Or.inr (by rw [hx])

/-- C21: `GetRawContext` returns the context the client holds and makes no call; afterwards
the client holds no context, so a second `GetRawContext` returns null, a later `Clean` (or
the destructor, which runs `Clean`) releases nothing, and a later `Connect()` releases
nothing but a failed context the transport has just answered with; host, port and timeout
are as before. -/
theorem C21_GetRawContext_transfers_ownership (self : MiniRedisClient)
    (answer : Option RedisContext) :
    self.GetRawContext.ret = self.context ∧
    self.GetRawContext.calls = [] ∧
    self.GetRawContext.self.context = none ∧
    self.GetRawContext.self.GetRawContext.ret = none ∧
    released self.GetRawContext.self.Clean.calls = [] ∧
    (∀ x ∈ released (self.GetRawContext.self.Connect answer).calls, answer = some x) ∧
    self.GetRawContext.self.host = self.host ∧
    self.GetRawContext.self.port = self.port ∧
    self.GetRawContext.self.timeoutSeconds = self.timeoutSeconds := by
  refine ⟨rfl, rfl, rfl, rfl, rfl, ?_, rfl, rfl, rfl⟩
  intro x hx
  rcases Connect_released_subset _ _ x hx with h | h
  · exact absurd h (by simp [MiniRedisClient.GetRawContext])
  · exact h

/-! ## `hgetall` with a repeated key: claim C23 -/

theorem StdMap.find_append (m1 m2 : StdMap) (key : Bytes) :
    StdMap.find (m1 ++ m2) key
      = match StdMap.find m1 key with
        | some x => some x
        | none => StdMap.find m2 key := by
  induction m1 with
  | nil => simp [StdMap.find]
  | cons kv rest ih =>
    obtain ⟨k, v⟩ := kv
    by_cases h : k = key
    · simp [StdMap.find, h]
    · simp [StdMap.find, h, ih]

theorem StdMap.find_emplace (m : StdMap) (k v key : Bytes) :
    (m.emplace k v).find key
      = match m.find key with
        | some x => some x
        | none => if k = key then some v else none := by
  unfold StdMap.emplace
  cases hk : m.find k with
  | some y =>
    cases hkey : m.find key with
    | some x => simp
    | none =>
      have hne : ¬ k = key := by
        intro e
        rw [e, hkey] at hk
        cases hk
      simp [hkey, hne]
  | none =>
    simp only [StdMap.find_append]
    cases hkey : m.find key <;> simp [StdMap.find]

theorem find_foldl_emplace (kvs : List (Bytes × Bytes)) (m : StdMap) (key : Bytes) :
    StdMap.find (kvs.foldl (fun acc kv => acc.emplace kv.1 kv.2) m) key
      = match m.find key with
        | some x => some x
        | none => StdMap.find kvs key := by
  induction kvs generalizing m with
  | nil => cases h : m.find key <;> simp [StdMap.find, h]
  | cons kv rest ih =>
    obtain ⟨k, v⟩ := kv
    rw [List.foldl_cons, ih, StdMap.find_emplace]
    cases hkey : m.find key with
    | some x => simp
    | none =>
      by_cases h : k = key
      · simp [StdMap.find, h]
      · simp [StdMap.find, h]

theorem nodup_keys_emplace (m : StdMap) (k v : Bytes) (h : (m.map Prod.fst).Nodup) :
    ((m.emplace k v).map Prod.fst).Nodup := by
  unfold StdMap.emplace
  cases hk : m.find k with
  | some y => simpa using h
  | none =>
    have hnot : k ∉ m.map Prod.fst := (StdMap.find_eq_none m k).mp hk
    simp only [List.map_append, List.map_cons, List.map_nil]
    rw [List.nodup_append]
    refine ⟨h, List.nodup_singleton k, ?_⟩
    intro a ha hb
    rw [List.mem_singleton] at hb
    exact hnot (hb ▸ ha)

theorem nodup_keys_foldl_emplace (kvs : List (Bytes × Bytes)) (m : StdMap)
    (h : (m.map Prod.fst).Nodup) :
    ((kvs.foldl (fun acc kv => acc.emplace kv.1 kv.2) m).map Prod.fst).Nodup := by
  induction kvs generalizing m with
  | nil => exact h
  | cons kv rest ih => exact ih _ (nodup_keys_emplace m kv.1 kv.2 h)

theorem StdMap.find_first_occurrence :
    ∀ (kvs : List (Bytes × Bytes)) (i : Nat) (hi : i < kvs.length),
      (∀ j (hj : j < kvs.length), j < i → (kvs.get ⟨j, hj⟩).1 ≠ (kvs.get ⟨i, hi⟩).1) →
      StdMap.find kvs (kvs.get ⟨i, hi⟩).1 = some (kvs.get ⟨i, hi⟩).2
  | (k, v) :: rest, 0, _, _ => by simp [StdMap.find]
  | (k, v) :: rest, i + 1, hi, hfirst => by
    have hi0 : i < rest.length := by simpa using hi
    have hhead : k ≠ (rest.get ⟨i, hi0⟩).1 := by
      simpa using hfirst 0 (by simp) (by omega)
    have ih := StdMap.find_first_occurrence rest i hi0 (fun j hj hlt => by
      simpa using hfirst (j + 1) (by simpa using hj) (by omega))
    show StdMap.find ((k, v) :: rest) (rest.get ⟨i, hi0⟩).1 = some (rest.get ⟨i, hi0⟩).2
    rw [StdMap.find, if_neg hhead]
    exact ih

/-- What `hgetall` returns for any Array reply of `2n` string elements: `ok = true` and a
map with one entry for each distinct key, which maps a key to the value that follows its
first occurrence in the reply. -/
theorem hgetall_first_wins (context : Context) (key : Bytes) (old : StdMap) (r : RedisReply)
    (kvs : List (Bytes × Bytes))
    (hctx : context (Request.v "HGETALL %b" [VArg.b (c_str key) key.length]) = some r)
    (htype : r.type = REDIS_REPLY_ARRAY)
    (helems : r.element.map RedisReply.str = alternating kvs) :
    ∃ m : StdMap, (hgetall context key old).result = Exec.returns (true, m) ∧
      (∀ k, m.find k = StdMap.find kvs k) ∧ (m.map Prod.fst).Nodup := by
  refine ⟨kvs.foldl (fun acc kv => acc.emplace kv.1 kv.2) [], ?_, ?_, ?_⟩
  · rw [hgetall_of_array context key old r hctx htype, helems, flattenPairs_alternating]
  · intro k
    rw [find_foldl_emplace]
    simp [StdMap.find]
  · exact nodup_keys_foldl_emplace kvs [] (by simp)

/-- C23: for an Array reply of `2n` string elements in which some key occurs at more than
one even position, `hgetall` returns `ok = true`; the keys of the map are exactly the
distinct keys of the reply, one entry for each; a key is mapped to the value paired with
its first occurrence (a later pair with the same key is ignored); and the map has fewer
than `n` entries. -/
theorem C23_hgetall_first_occurrence_wins (context : Context) (key : Bytes) (old : StdMap)
    (r : RedisReply) (kvs : List (Bytes × Bytes))
    (hctx : context (Request.v "HGETALL %b" [VArg.b (c_str key) key.length]) = some r)
    (htype : r.type = REDIS_REPLY_ARRAY)
    (helems : r.element.map RedisReply.str = alternating kvs)
    (hdup : ¬ (kvs.map Prod.fst).Nodup) :
    ∃ m : StdMap, (hgetall context key old).result = Exec.returns (true, m) ∧
      (∀ k, k ∈ m.map Prod.fst ↔ k ∈ kvs.map Prod.fst) ∧
      (m.map Prod.fst).Nodup ∧
      m.size = (kvs.map Prod.fst).dedup.length ∧
      (∀ i (hi : i < kvs.length),
        (∀ j (hj : j < kvs.length), j < i → (kvs.get ⟨j, hj⟩).1 ≠ (kvs.get ⟨i, hi⟩).1) →
        m.find (kvs.get ⟨i, hi⟩).1 = some (kvs.get ⟨i, hi⟩).2) ∧
      m.size < kvs.length := by
  obtain ⟨m, hres, hfind, hnodup⟩ := hgetall_first_wins context key old r kvs hctx htype helems
  have hkeys : ∀ k, k ∈ m.map Prod.fst ↔ k ∈ kvs.map Prod.fst := by
    intro k
    have h1 := StdMap.find_eq_none m k
    have h2 := StdMap.find_eq_none kvs k
    rw [hfind k] at h1
    constructor
    · intro hk
      by_contra hnot
      exact (h1.mp (h2.mpr hnot)) hk
    · intro hk
      by_contra hnot
      exact (h2.mp (h1.mpr hnot)) hk
  have hsize : m.size = (kvs.map Prod.fst).dedup.length := by
    have hperm : List.Perm (m.map Prod.fst) (kvs.map Prod.fst).dedup :=
      (List.perm_ext_iff_of_nodup hnodup (List.nodup_dedup _)).mpr
        (fun k => (hkeys k).trans List.mem_dedup.symm)
    have hlen := hperm.length_eq
    simpa [StdMap.size] using hlen
  refine ⟨m, hres, hkeys, hnodup, hsize, ?_, ?_⟩
  · intro i hi hfirst
    rw [hfind]
    exact StdMap.find_first_occurrence kvs i hi hfirst
  · rw [hsize]
    have hsub := List.dedup_sublist (kvs.map Prod.fst)
    have hle := hsub.length_le
    have hne : (kvs.map Prod.fst).dedup.length ≠ (kvs.map Prod.fst).length := by
      intro e
      exact hdup (List.dedup_eq_self.mp (hsub.eq_of_length e))
    have hlen : (kvs.map Prod.fst).length = kvs.length := List.length_map _ _
    omega

/-- C23 on the reply `["a", "1", "a", "2"]`. -/
theorem C23_hgetall_first_occurrence_wins_witness :
    ∃ m : StdMap,
      (hgetall (fun _ => some (RedisReply.mk REDIS_REPLY_ARRAY 0 []
          [RedisReply.mk REDIS_REPLY_STRING 0 [97] [], RedisReply.mk REDIS_REPLY_STRING 0 [49] [],
           RedisReply.mk REDIS_REPLY_STRING 0 [97] [], RedisReply.mk REDIS_REPLY_STRING 0 [50] []]))
        [104] []).result = Exec.returns (true, m) ∧
      (∀ k, k ∈ m.map Prod.fst ↔ k ∈ [(([97] : Bytes), ([49] : Bytes)), ([97], [50])].map Prod.fst) ∧
      (m.map Prod.fst).Nodup ∧
      m.size = ([(([97] : Bytes), ([49] : Bytes)), ([97], [50])].map Prod.fst).dedup.length ∧
      m.find [97] = some [49] ∧
      m.size < 2 := by
  obtain ⟨m, h1, h2, h3, h4, h5, h6⟩ := C23_hgetall_first_occurrence_wins
    (fun _ => some (RedisReply.mk REDIS_REPLY_ARRAY 0 []
      [RedisReply.mk REDIS_REPLY_STRING 0 [97] [], RedisReply.mk REDIS_REPLY_STRING 0 [49] [],
       RedisReply.mk REDIS_REPLY_STRING 0 [97] [], RedisReply.mk REDIS_REPLY_STRING 0 [50] []]))
    [104] [] _ [([97], [49]), ([97], [50])] rfl rfl rfl (by decide)
  exact ⟨m, h1, h2, h3, h4, h5 0 (by decide) (fun j _ hlt => absurd hlt (Nat.not_lt_zero j)), h6⟩

/-! ## Submission on a connected object: claim C24 -/

/-- C24: on an object that holds an async handle, `Publish` with an empty channel or an
empty content, and `Subscribe` and `Unsubscribe` with an empty channel, return `false`,
hand no command to `redisAsyncCommand` and leave the object as it was; with a non-empty
channel (and a non-empty content for `Publish`) exactly one command is handed over, with
the channel (and the content) as its arguments, and the result is `true` exactly when the
answer of `redisAsyncCommand` is not `REDIS_ERR`. -/
theorem C24_connected_submission (self : MiniRedisPubSub) (ac : RedisAsyncContext)
    (channel content : Bytes) (b c : UInt8) (bs cs : Bytes) (answer : Int)
    (hconn : self.asyncContext = some ac) :
    self.Publish [] content answer = { ret := false, self := self, effects := [] } ∧
    self.Publish channel [] answer = { ret := false, self := self, effects := [] } ∧
    self.Subscribe [] answer = { ret := false, self := self, effects := [] } ∧
    self.Unsubscribe [] answer = { ret := false, self := self, effects := [] } ∧
    (submitted (self.Publish (b :: bs) (c :: cs) answer).effects
        = [("PUBLISH %b %b", [VArg.b (c_str (b :: bs)) (b :: bs).length,
            VArg.b (c_str (c :: cs)) (c :: cs).length])] ∧
      ((self.Publish (b :: bs) (c :: cs) answer).ret = true ↔ answer ≠ REDIS_ERR) ∧
      (self.Publish (b :: bs) (c :: cs) answer).self = self) ∧
    (submitted (self.Subscribe (b :: bs) answer).effects
        = [("SUBSCRIBE %b", [VArg.b (c_str (b :: bs)) (b :: bs).length])] ∧
      ((self.Subscribe (b :: bs) answer).ret = true ↔ answer ≠ REDIS_ERR) ∧
      (self.Subscribe (b :: bs) answer).self = self) ∧
    (submitted (self.Unsubscribe (b :: bs) answer).effects
        = [("UNSUBSCRIBE %b", [VArg.b (c_str (b :: bs)) (b :: bs).length])] ∧
      ((self.Unsubscribe (b :: bs) answer).ret = true ↔ answer ≠ REDIS_ERR) ∧
      (self.Unsubscribe (b :: bs) answer).self = self) := by
  refine ⟨?_, ?_, ?_, ?_, ?_, ?_, ?_⟩
  · simp [MiniRedisPubSub.Publish, hconn]
  · simp [MiniRedisPubSub.Publish, hconn]
  · simp [MiniRedisPubSub.Subscribe, hconn]
  · simp [MiniRedisPubSub.Unsubscribe, hconn]
  · by_cases ha : answer = REDIS_ERR <;>
      simp [MiniRedisPubSub.Publish, hconn, ha, submitted]
  · by_cases ha : answer = REDIS_ERR <;>
      simp [MiniRedisPubSub.Subscribe, hconn, ha, submitted]
  · by_cases ha : answer = REDIS_ERR <;>
      simp [MiniRedisPubSub.Unsubscribe, hconn, ha, submitted]

/-- C24 on an object connected with the handle 1, for the channel "ch", the content "x"
and the answer `REDIS_OK`. -/
theorem C24_connected_submission_witness :
    (MiniRedisPubSub.Init.Connect (some ⟨1, 0⟩) (some ⟨7⟩)).self.Publish [] [120] 0
      = { ret := false, self := (MiniRedisPubSub.Init.Connect (some ⟨1, 0⟩) (some ⟨7⟩)).self,
          effects := [] } ∧
    submitted ((MiniRedisPubSub.Init.Connect (some ⟨1, 0⟩) (some ⟨7⟩)).self.Publish
        [99, 104] [120] 0).effects
      = [("PUBLISH %b %b", [VArg.b (c_str [99, 104]) ([99, 104] : Bytes).length,
          VArg.b (c_str [120]) ([120] : Bytes).length])] ∧
    (((MiniRedisPubSub.Init.Connect (some ⟨1, 0⟩) (some ⟨7⟩)).self.Publish
        [99, 104] [120] 0).ret = true ↔ (0 : Int) ≠ REDIS_ERR) := by
  have h := C24_connected_submission
    (MiniRedisPubSub.Init.Connect (some ⟨1, 0⟩) (some ⟨7⟩)).self ⟨1, 0⟩
    [99, 104] [120] 99 120 [104] [] 0 rfl
  exact ⟨h.1, h.2.2.2.2.1.1, h.2.2.2.2.1.2.1⟩

end MiniRedis
